import Mathlib

/-! Dinosaur game: the per-tick simulation of `dinosaur_game.c`.

A shallow embedding of the simulation core of `src/dinosaur_game.c`
(`detect_object_collisions`, `jump`, `update`, `generate_obstacle`,
`obstacle_constructor` and the game loop of `main`), followed by theorems about it.

Modelling conventions.

* C `int` values are unbounded integers (`Int`). Signed overflow is undefined in C,
  so every statement is about runs in which no `int` operation overflows.
* C `float` values are exact rationals (`ℚ`): finite values, no rounding, no NaN.
  `floor` and `ceil` are the mathematical ones, and the conversion of a
  floating-point value to `int` truncates toward zero.
* The array `obstacles` is a memory of slots indexed from 0, each holding `NULL`
  (`none`) or an obstacle (`some o`). Slots past the `max_obstacles` entries given to
  `calloc` are part of the memory, so that the code can be followed when it indexes
  them. A slot holds the obstacle itself: distinct slots are distinct objects.
* A run that dereferences `NULL`, indexes the array below 0, takes `% 0`, or calls
  `memmove` with a negative length has no result (`none`).
* `rand()` is an arbitrary sequence `rand : Nat → Nat` of draws; the state counts the
  calls made so far. `COLS` (the terminal width of curses) is a parameter.
* Drawing, the blocking `wgetch` after a collision and frame pacing are left out.
-/

namespace DinosaurGame

/-- The C `struct rect`: a box in screen cells, `y` its top row and `x` its left column. -/
structure rect where
  height : Int
  width : Int
  y : Int
  x : Int
deriving DecidableEq, Repr

/-- The C `struct level`. -/
structure level where
  number : Int
  max_obstacles : Int
  latest_obstacle : Int
  min_obstacle_distance : Int
  max_obstacle_distance : Int
  variability : Int
  gravity : ℚ
  speed : ℚ
  game_state : Bool
deriving DecidableEq, Repr

/-- The C `struct dinosaur`. The pointer `current_frame` is kept as its offset, counted
in `char *` elements, from the start of `frame_1`; the arrays `frame_1[4]` and
`frame_2[4]` are adjacent members, so `frame_1` is offset 0 and `frame_2` is offset 4. -/
structure dinosaur where
  hitbox : rect
  max_dy : ℚ
  dy : ℚ
  ground : Int
  current_frame : Int
deriving DecidableEq, Repr

/-- The C `struct obstacle`: a hitbox and the glyph rows stored in `ascii[]`. -/
structure obstacle where
  hitbox : rect
  ascii : List String
deriving DecidableEq, Repr

/-- Offset of `dino.frame_1` from itself. -/
def frame_1 : Int := 0

/-- Offset of `dino.frame_2` from `dino.frame_1`. -/
def frame_2 : Int := 4

/-- The memory of obstacle slots behind the pointer `obstacles`. -/
abbrev slots := Nat → Option obstacle

/-- Everything `update` reads or writes: the level, the dinosaur, the obstacle slots and
the number of `rand()` calls made so far. -/
structure game where
  current_level : level
  dino : dinosaur
  obstacles : slots
  calls : Nat

/-- Source lines 200-213. -/
def detect_object_collisions (left right : rect) : Bool :=
  if left.x + left.width ≥ right.x ∧ left.x < right.x + right.width ∧
      left.y + left.height > right.y then
    true
  else
    false

/-- Source lines 215-218. -/
def jump (dino : dinosaur) : dinosaur :=
  { dino with dy := dino.max_dy }

/-- Source lines 222-230: the animation step of `update`. -/
def animate (dino : dinosaur) : dinosaur :=
  if dino.current_frame ≥ frame_1 ∧ dino.current_frame < frame_1 + dino.hitbox.height then
    { dino with current_frame := frame_2 }
  else
    { dino with current_frame := frame_1 }

/-- Source line 233: the row after the move, before the clamp. `hitbox.y -= floor(dy)`
subtracts an integer-valued double from an `int`, which is exact. -/
def moved_y (dino : dinosaur) : Int :=
  if dino.dy > 0 then dino.hitbox.y - ⌊dino.dy⌋ else dino.hitbox.y - ⌈dino.dy⌉

/-- Source lines 232-239: move, clamp at the ground, then gravity. -/
def physics (gravity : ℚ) (dino : dinosaur) : dinosaur :=
  let y1 := moved_y dino
  let y2 := if y1 > dino.ground then dino.ground else y1
  let dy2 := if y2 ≠ dino.ground then dino.dy + gravity else 0
  { dino with hitbox := { dino.hitbox with y := y2 }, dy := dy2 }

/-- Conversion of a floating-point value to `int`: the fractional part is discarded. -/
def to_int (q : ℚ) : Int :=
  if 0 ≤ q then ⌊q⌋ else ⌈q⌉

/-- Source line 244: `obstacles[i]->hitbox.x -= current_level->speed`. -/
def scroll (speed : ℚ) (o : obstacle) : obstacle :=
  { o with hitbox := { o.hitbox with x := to_int ((o.hitbox.x : ℚ) - speed) } }

/-- Source lines 241-257: the loop over the active obstacles, from index `i`, with `k`
iterations left. The result is `true` with the slots as they stand when a collision
stops the loop, `false` with all slots scrolled when the loop runs to its end, and
no result when slot `i` is `NULL`. -/
def scroll_loop (box : rect) (speed : ℚ) : Nat → Nat → slots → Option (Bool × slots)
  | 0, _, obs => some (false, obs)
  | k + 1, i, obs =>
    match obs i with
    | none => none
    | some o =>
      let obs1 := Function.update obs i (some (scroll speed o))
      if detect_object_collisions box (scroll speed o).hitbox then
        some (true, obs1)
      else
        scroll_loop box speed k (i + 1) obs1

/-- Source lines 259-267: removal of the front obstacle. `memmove` copies
`max_obstacles` slots, from slot 1 onto slot 0. -/
def remove_front (obs : slots) (lvl : level) : Option (slots × level) :=
  match obs 0 with
  | none => some (obs, lvl)
  | some o =>
    if o.hitbox.x ≤ 0 then
      if lvl.max_obstacles < 0 then none
      else
        some (fun i => if (i : Int) < lvl.max_obstacles then obs (i + 1) else obs i,
              { lvl with latest_obstacle := lvl.latest_obstacle - 1 })
    else
      some (obs, lvl)

/-- Source lines 319-342. The variadic glyph rows are the list `args`, of which the
first `n` are stored. -/
def obstacle_constructor (COLS : Int) (height width y n : Int) (args : List String) :
    obstacle :=
  { hitbox := { height := height, width := width, y := y, x := COLS - (width + 1) },
    ascii := args.take n.toNat }

/-- Source lines 293-316: the template chosen by the draw `r = rand() % 3`. A draw of
`rand()` is not negative, so `r` is 0, 1 or 2 and the last branch is `case 2`. -/
def template (COLS : Int) (r : Nat) : obstacle :=
  match r with
  | 0 => obstacle_constructor COLS 4 9 15 4
      ["   -@% +-", "-% =@@*# ", "=@#%@@   ", "   +@@   "]
  | 1 => obstacle_constructor COLS 4 6 15 4
      ["  %% .", "=:@@+#", " #@@= ", " .%%. "]
  | _ => obstacle_constructor COLS 4 15 15 4
      ["   -@% +-  %% .", "-% =@@*# =:@@+#", "=@#%@@    #@@= ", "   +@@    .%%. "]

/-- The slot `obstacles[i]` for a C index `i`; nothing below index 0. -/
def slot_at (obs : slots) (i : Int) : Option obstacle :=
  if i < 0 then none else obs i.toNat

/-- Source lines 278-317. `n` is the number of `rand()` calls made before the call. The
result is the returned pointer (`none` for `NULL`) and the number of `rand()` calls made
after it; there is no result when the call reads a missing slot or takes `% 0`. -/
def generate_obstacle (COLS : Int) (rand : Nat → Nat) (obs : slots) (lvl : level)
    (n : Nat) : Option (Option obstacle × Nat) :=
  if lvl.latest_obstacle > lvl.max_obstacles then some (none, n)
  else
    match obs 0 with
    | none => some (some (template COLS (rand n % 3)), n + 1)
    | some _ =>
      match slot_at obs (lvl.latest_obstacle - 1) with
      | none => none
      | some back =>
        if back.hitbox.x > COLS - lvl.min_obstacle_distance then some (none, n)
        else if back.hitbox.x > COLS - lvl.max_obstacle_distance then
          if lvl.variability = 0 then none
          else if Int.tmod (rand n) lvl.variability > 0 then some (none, n + 1)
          else some (some (template COLS (rand (n + 1) % 3)), n + 2)
        else some (some (template COLS (rand n % 3)), n + 1)

/-- Source lines 220-267: `update` up to, and without, the generation of a new obstacle.
The flag is `true` when a collision made `update` return at line 255. -/
def before_generate (s : game) : Option (Bool × game) :=
  let d := physics s.current_level.gravity (animate s.dino)
  match scroll_loop d.hitbox s.current_level.speed s.current_level.latest_obstacle.toNat 0
      s.obstacles with
  | none => none
  | some (true, obs) =>
    some (true, { s with dino := d, obstacles := obs,
                         current_level := { s.current_level with game_state := false } })
  | some (false, obs) =>
    match remove_front obs s.current_level with
    | none => none
    | some (obs1, lvl1) =>
      some (false, { current_level := lvl1, dino := d, obstacles := obs1, calls := s.calls })

/-- Source lines 220-276. -/
def update (COLS : Int) (rand : Nat → Nat) (s : game) : Option game :=
  match before_generate s with
  | none => none
  | some (true, s1) => some s1
  | some (false, s1) =>
    match generate_obstacle COLS rand s1.obstacles s1.current_level s1.calls with
    | none => none
    | some (none, n) => some { s1 with calls := n }
    | some (some cactus, n) =>
      if s1.current_level.latest_obstacle < 0 then none
      else
        some { s1 with
          current_level :=
            { s1.current_level with
              latest_obstacle := s1.current_level.latest_obstacle + 1 },
          obstacles :=
            Function.update s1.obstacles s1.current_level.latest_obstacle.toNat (some cactus),
          calls := n }

/-- The key read by `wgetch` in one iteration of the game loop: Ctrl-Z, `w`, or
anything else (no key included). -/
inductive key where
  | ctrlz
  | w
  | other
deriving DecidableEq, Repr

/-- Source lines 145-159: one iteration of the game loop, up to the call of `update`. -/
def tick (COLS : Int) (rand : Nat → Nat) (k : key) (s : game) : Option game :=
  match k with
  | key.ctrlz =>
    update COLS rand { s with current_level := { s.current_level with game_state := false } }
  | key.w => update COLS rand { s with dino := jump s.dino }
  | key.other => update COLS rand s

/-- Source lines 143-159: the game loop over a finite sequence of keys. The loop stops
once `game_state` is false. -/
def play (COLS : Int) (rand : Nat → Nat) : List key → game → Option game
  | [], s => some s
  | k :: ks, s =>
    if s.current_level.game_state then
      match tick COLS rand k s with
      | none => none
      | some s1 => play COLS rand ks s1
    else some s

/-- Source lines 86-138: the state built by `main` before the game loop. -/
def main_init (COLS : Int) : game :=
  { current_level :=
      { number := 1, max_obstacles := 2 * 1, latest_obstacle := 0,
        min_obstacle_distance := Int.tdiv COLS (2 * 1), max_obstacle_distance := COLS,
        variability := 10, gravity := -(2 / 5), speed := 2 * 1, game_state := true },
    dino :=
      { hitbox := { height := 4, width := 9, y := 20 - 5, x := 40 },
        max_dy := 3, dy := 0, ground := 20 - 5, current_frame := frame_1 },
    obstacles := fun _ => none,
    calls := 0 }

/-- A running game on an 80-column terminal with two obstacles, the front one at
column 2 and the back one at column 62. -/
def removal_scene : game :=
  { (main_init 80) with
    current_level := { (main_init 80).current_level with latest_obstacle := 2 },
    obstacles := fun i =>
      if i = 0 then some { (template 80 0) with hitbox := { (template 80 0).hitbox with x := 2 } }
      else if i = 1 then
        some { (template 80 1) with hitbox := { (template 80 1).hitbox with x := 62 } }
      else none }

/-- The state of the game loop one tick after a jump from the state built by `main`,
with `game_state` set to false as Ctrl-Z does at line 150. -/
def ended_scene : game :=
  { current_level :=
      { (main_init 80).current_level with latest_obstacle := 1, game_state := false },
    dino := { (main_init 80).dino with
      hitbox := { (main_init 80).dino.hitbox with y := 12 }, dy := 13 / 5,
      current_frame := frame_2 },
    obstacles := fun i => if i = 0 then some (template 80 0) else none,
    calls := 1 }

/-- A state in which the obstacle set fits its array: `variability` is not 0, the count
is between 0 and `max_obstacles`, the slots below the count hold obstacles and the slots
from the count on are `NULL`. -/
def well_formed (s : game) : Prop :=
  s.current_level.variability ≠ 0 ∧
  0 ≤ s.current_level.latest_obstacle ∧
  s.current_level.latest_obstacle ≤ s.current_level.max_obstacles ∧
  (∀ j : Nat, (j : Int) < s.current_level.latest_obstacle → s.obstacles j ≠ none) ∧
  (∀ j : Nat, s.current_level.latest_obstacle ≤ (j : Int) → s.obstacles j = none)

/-- The draws of a `rand()` that returns 0 at its first five calls and 1 afterwards. -/
def late_draws : Nat → Nat := fun n => if n < 5 then 0 else 1

/-- The draws of a `rand()` that returns 0 at every call. -/
def zero_draws : Nat → Nat := fun _ => 0

/-- The displacement of line 233: `floor(dy)` when `dy > 0`, `ceil(dy)` otherwise. -/
def displacement (dy : ℚ) : Int :=
  if dy > 0 then ⌊dy⌋ else ⌈dy⌉

/-- The slots once every active obstacle (index below `latest_obstacle`) has been moved
by line 244; the other slots are as they were. -/
def scrolled (s : game) : slots :=
  fun j =>
    if (j : Int) < s.current_level.latest_obstacle then
      (s.obstacles j).map (scroll s.current_level.speed)
    else s.obstacles j


/-- Source line 202: the horizontal part of the test of `detect_object_collisions`. -/
def horizontal_overlap (left right : rect) : Bool :=
  decide (left.x + left.width ≥ right.x ∧ left.x < right.x + right.width)

/-- Repeated iterations of the body of the game loop (lines 145-159), one per key,
without the loop test on `game_state`: repeated calls to `update`. -/
def ticks (COLS : Int) (rand : Nat → Nat) : List key → game → Option game
  | [], s => some s
  | k :: ks, s =>
    match tick COLS rand k s with
    | none => none
    | some s1 => ticks COLS rand ks s1

/-- The draws of a `rand()` whose third call returns 2 and every other call 0. -/
def wide_third_draw : Nat → Nat := fun n => if n = 2 then 2 else 0

/-- The level built by `main` on a 20-column terminal, with one obstacle of width 9 at
column 8. -/
def narrow_scene : game :=
  { (main_init 20) with
    current_level := { (main_init 20).current_level with latest_obstacle := 1 },
    obstacles := fun i =>
      if i = 0 then some { (template 20 0) with hitbox := { (template 20 0).hitbox with x := 8 } }
      else none,
    calls := 1 }


/-- A running game on an 80-column terminal with two obstacles: one two columns to the
right of the dinosaur's column and one at column 70. -/
def pileup_scene : game :=
  { (main_init 80) with
    current_level := { (main_init 80).current_level with latest_obstacle := 2 },
    obstacles := fun i =>
      if i = 0 then
        some { (template 80 0) with hitbox := { (template 80 0).hitbox with x := 42 } }
      else if i = 1 then some (template 80 1)
      else none }


/-- The state `s` with the pointer `current_frame` replaced by `f`: a state that differs
from `s` only in `current_frame`. -/
def set_frame (f : Int) (s : game) : game :=
  { s with dino := { s.dino with current_frame := f } }


/-- The state built by `main` on a 200-column terminal, with the dinosaur standing on
ground row 20. -/
def arc_scene : game :=
  { (main_init 200) with
    dino := { (main_init 200).dino with
      hitbox := { (main_init 200).dino.hitbox with y := 20 }, ground := 20 } }


/-- The state of the obstacle set when the game loop starts (lines 90 and 99): no
active obstacle and every slot `NULL`. -/
def initial_state (s : game) : Prop :=
  s.current_level.latest_obstacle = 0 ∧ ∀ j, s.obstacles j = none

/-- The count is between 0 and `max_obstacles + 1`, the slots below the count hold
obstacles, and slot 0 is `NULL` when the count is 0. -/
def counted (s : game) : Prop :=
  0 ≤ s.current_level.latest_obstacle ∧
  s.current_level.latest_obstacle ≤ s.current_level.max_obstacles + 1 ∧
  (∀ j : Nat, (j : Int) < s.current_level.latest_obstacle → s.obstacles j ≠ none) ∧
  (s.current_level.latest_obstacle = 0 → s.obstacles 0 = none)


/-- The slots below the count hold obstacles and the slots from the count on are `NULL`,
for a count that is not negative. -/
def filled_front (s : game) : Prop :=
  0 ≤ s.current_level.latest_obstacle ∧
  (∀ j : Nat, (j : Int) < s.current_level.latest_obstacle → s.obstacles j ≠ none) ∧
  (∀ j : Nat, s.current_level.latest_obstacle ≤ (j : Int) → s.obstacles j = none)


/-- The active obstacles are in strictly increasing order of `hitbox.x`. -/
def ordered (s : game) : Prop :=
  ∀ i j : Nat, i < j → (j : Int) < s.current_level.latest_obstacle →
    ∀ a b, s.obstacles i = some a → s.obstacles j = some b → a.hitbox.x < b.hitbox.x

/-- The state built by `main` on an 80-column terminal, for a level whose
`min_obstacle_distance` is 5. -/
def close_scene : game :=
  { (main_init 80) with
    current_level := { (main_init 80).current_level with min_obstacle_distance := 5 } }


/-! ## The collision test -/

/-- C1: `detect_object_collisions a b` is true exactly when `a.x + a.width >= b.x`,
`a.x < b.x + b.width` and `a.y + a.height > b.y`. -/
theorem detect_object_collisions_iff (a b : rect) :
    detect_object_collisions a b = true ↔
      (a.x + a.width ≥ b.x ∧ a.x < b.x + b.width ∧ a.y + a.height > b.y) := by
  simp [detect_object_collisions]

/-! ## The loop over the active obstacles -/

/-- What a finished run of the loop did: it moved the `m` slots from index `i` on, all of
them obstacles, and the dinosaur touches the moved obstacle exactly at the last of them
and only when the loop reports a collision. -/
theorem scroll_loop_spec (box : rect) (speed : ℚ) :
    ∀ (k i : Nat) (obs : slots) (r : Bool) (obs1 : slots),
      scroll_loop box speed k i obs = some (r, obs1) →
      ∃ m : Nat, m ≤ k ∧ (r = false → m = k) ∧ (r = true → 1 ≤ m) ∧
        (∀ j, obs1 j = if i ≤ j ∧ j < i + m then (obs j).map (scroll speed) else obs j) ∧
        (∀ j, i ≤ j → j < i + m → ∃ o, obs j = some o ∧
          (detect_object_collisions box (scroll speed o).hitbox = true ↔
            (r = true ∧ j + 1 = i + m))) := by
  intro k
  induction k with
  | zero =>
    intro i obs r obs1 h
    simp only [scroll_loop, Option.some.injEq, Prod.mk.injEq] at h
    obtain ⟨hr, ho⟩ := h
    subst hr; subst ho
    refine ⟨0, le_refl _, fun _ => rfl, fun h => by simp at h, fun j => ?_,
      fun j h1 h2 => by omega⟩
    have : ¬ (i ≤ j ∧ j < i) := by omega
    simp [this]
  | succ k ih =>
    intro i obs r obs1 h
    unfold scroll_loop at h
    cases hoi : obs i with
    | none => simp [hoi] at h
    | some o =>
      simp only [hoi] at h
      by_cases hc : detect_object_collisions box (scroll speed o).hitbox = true
      · simp only [hc, if_true, Option.some.injEq, Prod.mk.injEq] at h
        obtain ⟨hr, ho⟩ := h
        subst hr; subst ho
        refine ⟨1, by omega, fun h => by simp at h, fun _ => le_refl _, ?_, ?_⟩
        · intro j
          by_cases hj : j = i
          · subst hj; simp [hoi]
          · have : ¬ (i ≤ j ∧ j < i + 1) := by omega
            simp [Function.update_noteq hj, this]
        · intro j h1 h2
          have hj : j = i := by omega
          subst hj
          exact ⟨o, hoi, by simp [hc]⟩
      · simp only [hc, Bool.false_eq_true, if_false] at h
        obtain ⟨m, hm, hf, ht, hob, hdet⟩ := ih (i + 1) _ r obs1 h
        refine ⟨m + 1, by omega, fun h => by rw [hf h], fun _ => by omega, ?_, ?_⟩
        · intro j
          rw [hob j]
          by_cases hj : j = i
          · subst hj
            have : ¬ (j + 1 ≤ j ∧ j < j + 1 + m) := by omega
            simp [this, hoi]
          · rw [Function.update_noteq hj]
            by_cases h1 : i + 1 ≤ j ∧ j < i + 1 + m
            · have : i ≤ j ∧ j < i + (m + 1) := by omega
              simp [h1, this]
            · have : ¬ (i ≤ j ∧ j < i + (m + 1)) := by omega
              simp [h1, this]
        · intro j h1 h2
          by_cases hj : j = i
          · subst hj
            refine ⟨o, hoi, ?_⟩
            constructor
            · intro h; exact absurd h hc
            · rintro ⟨hr, hjm⟩
              have hm1 := ht hr
              omega
          · obtain ⟨o2, ho2, hd2⟩ := hdet j (by omega) (by omega)
            rw [Function.update_noteq hj] at ho2
            refine ⟨o2, ho2, ?_⟩
            rw [hd2]
            constructor
            · rintro ⟨hr, hjm⟩; exact ⟨hr, by omega⟩
            · rintro ⟨hr, hjm⟩; exact ⟨hr, by omega⟩

/-- The slots after a loop that ran to its end are the scrolled slots. -/
theorem scroll_loop_false_eq (s : game) (box : rect) (obs1 : slots)
    (h : scroll_loop box s.current_level.speed s.current_level.latest_obstacle.toNat 0
      s.obstacles = some (false, obs1)) :
    obs1 = scrolled s := by
  obtain ⟨m, -, hf, -, hob, -⟩ := scroll_loop_spec _ _ _ _ _ _ _ h
  have hm := hf rfl
  funext j
  rw [hob j]
  unfold scrolled
  by_cases hj : (j : Int) < s.current_level.latest_obstacle
  · have : 0 ≤ j ∧ j < 0 + m := by omega
    rw [if_pos this, if_pos hj]
  · have : ¬ (0 ≤ j ∧ j < 0 + m) := by omega
    rw [if_neg this, if_neg hj]

/-- The loop reports a collision exactly when some active obstacle, moved by line 244,
is touched by the box. -/
theorem scroll_loop_true_iff (s : game) (box : rect) (r : Bool) (obs1 : slots)
    (h : scroll_loop box s.current_level.speed s.current_level.latest_obstacle.toNat 0
      s.obstacles = some (r, obs1)) :
    r = true ↔ ∃ i : Nat, (i : Int) < s.current_level.latest_obstacle ∧
      ∃ o, s.obstacles i = some o ∧
        detect_object_collisions box (scroll s.current_level.speed o).hitbox = true := by
  obtain ⟨m, hmk, hf, ht, -, hdet⟩ := scroll_loop_spec _ _ _ _ _ _ _ h
  constructor
  · intro hr
    have hm := ht hr
    obtain ⟨o, ho, hd⟩ := hdet (m - 1) (by omega) (by omega)
    exact ⟨m - 1, by omega, o, ho, hd.mpr ⟨hr, by omega⟩⟩
  · rintro ⟨i, hi, o, ho, hd⟩
    cases r with
    | true => rfl
    | false =>
      have hm := hf rfl
      obtain ⟨o2, ho2, hd2⟩ := hdet i (by omega) (by omega)
      rw [ho] at ho2
      cases ho2
      exact (hd2.mp hd).1

/-- Every slot after the loop holds what it held before, moved by line 244 or not. -/
theorem scroll_loop_slot (s : game) (box : rect) (r : Bool) (obs1 : slots)
    (h : scroll_loop box s.current_level.speed s.current_level.latest_obstacle.toNat 0
      s.obstacles = some (r, obs1)) (j : Nat) :
    obs1 j = s.obstacles j ∨ obs1 j = scrolled s j := by
  obtain ⟨m, hmk, -, -, hob, -⟩ := scroll_loop_spec _ _ _ _ _ _ _ h
  rw [hob j]
  by_cases hj : 0 ≤ j ∧ j < 0 + m
  · right
    have : (j : Int) < s.current_level.latest_obstacle := by omega
    unfold scrolled
    rw [if_pos hj, if_pos this]
  · left
    rw [if_neg hj]

/-- What `before_generate` returns, in terms of the state it started from. -/
theorem before_generate_spec (s : game) (r : Bool) (s1 : game)
    (h : before_generate s = some (r, s1)) :
    s1.dino = physics s.current_level.gravity (animate s.dino) ∧
    s1.calls = s.calls ∧
    (r = true ↔ ∃ i : Nat, (i : Int) < s.current_level.latest_obstacle ∧
      ∃ o, s.obstacles i = some o ∧
        detect_object_collisions (physics s.current_level.gravity (animate s.dino)).hitbox
          (scroll s.current_level.speed o).hitbox = true) ∧
    (r = true → s1.current_level = { s.current_level with game_state := false } ∧
      ∀ j, s1.obstacles j = s.obstacles j ∨ s1.obstacles j = scrolled s j) ∧
    (r = false →
      remove_front (scrolled s) s.current_level = some (s1.obstacles, s1.current_level)) := by
  unfold before_generate at h
  simp only at h
  split at h
  · exact absurd h (by simp)
  · rename_i obs hl
    simp only [Option.some.injEq, Prod.mk.injEq] at h
    obtain ⟨hr, hs⟩ := h
    subst hr; subst hs
    refine ⟨rfl, rfl, ?_, ?_, fun h => by simp at h⟩
    · exact scroll_loop_true_iff s _ _ _ hl
    · intro _
      exact ⟨rfl, fun j => scroll_loop_slot s _ _ _ hl j⟩
  · rename_i obs hl
    have hobs := scroll_loop_false_eq s _ _ hl
    split at h
    · exact absurd h (by simp)
    · rename_i obs1 lvl1 hrm
      simp only [Option.some.injEq, Prod.mk.injEq] at h
      obtain ⟨hr, hs⟩ := h
      subst hr; subst hs
      refine ⟨rfl, rfl, ?_, fun h => by simp at h, fun _ => ?_⟩
      · exact scroll_loop_true_iff s _ _ _ hl
      · rw [← hobs]; exact hrm

/-- What `update` adds to `before_generate`: nothing after a collision, and otherwise at
most one obstacle, written to slot `latest_obstacle`. -/
theorem update_spec (COLS : Int) (rand : Nat → Nat) (s s2 : game)
    (h : update COLS rand s = some s2) :
    ∃ r s1, before_generate s = some (r, s1) ∧
      s2.dino = s1.dino ∧
      (r = true → s2 = s1) ∧
      (∀ i : Nat, (i : Int) < s1.current_level.latest_obstacle →
        s2.obstacles i = s1.obstacles i) ∧
      (s2.current_level = s1.current_level ∨
        s2.current_level = { s1.current_level with
          latest_obstacle := s1.current_level.latest_obstacle + 1 }) := by
  unfold update at h
  split at h
  · exact absurd h (by simp)
  · rename_i s1 hb
    simp only [Option.some.injEq] at h
    subst h
    exact ⟨true, _, hb, rfl, fun _ => rfl, fun _ _ => rfl, Or.inl rfl⟩
  · rename_i s1 hb
    refine ⟨false, s1, hb, ?_⟩
    split at h
    · exact absurd h (by simp)
    · simp only [Option.some.injEq] at h
      subst h
      exact ⟨rfl, fun h => by simp at h, fun _ _ => rfl, Or.inl rfl⟩
    · split at h
      · exact absurd h (by simp)
      · rename_i hlat
        simp only [Option.some.injEq] at h
        subst h
        refine ⟨rfl, fun h => by simp at h, fun i hi => ?_, Or.inr rfl⟩
        have : i ≠ s1.current_level.latest_obstacle.toNat := by omega
        simp [Function.update_noteq this]

/-- The removal step changes nothing in the level but `latest_obstacle`. -/
theorem remove_front_level (obs obs1 : slots) (lvl lvl1 : level)
    (h : remove_front obs lvl = some (obs1, lvl1)) :
    lvl1 = lvl ∨ lvl1 = { lvl with latest_obstacle := lvl.latest_obstacle - 1 } := by
  unfold remove_front at h
  split at h
  · simp only [Option.some.injEq, Prod.mk.injEq] at h
    exact Or.inl h.2.symm
  · split at h
    · split at h
      · exact absurd h (by simp)
      · simp only [Option.some.injEq, Prod.mk.injEq] at h
        exact Or.inr h.2.symm
    · simp only [Option.some.injEq, Prod.mk.injEq] at h
      exact Or.inl h.2.symm

/-- The dinosaur and `game_state` after `update`, in terms of the state before. -/
theorem update_dino_game_state (COLS : Int) (rand : Nat → Nat) (s s2 : game)
    (h : update COLS rand s = some s2) :
    s2.dino = physics s.current_level.gravity (animate s.dino) ∧
    ∃ r s1, before_generate s = some (r, s1) ∧
      (r = true → s2.current_level.game_state = false) ∧
      (r = false → s2.current_level.game_state = s.current_level.game_state) := by
  obtain ⟨r, s1, hb, hd, hcol, -, hlvl⟩ := update_spec COLS rand s s2 h
  obtain ⟨hd1, -, -, ht, hf⟩ := before_generate_spec s r s1 hb
  refine ⟨hd.trans hd1, r, s1, hb, ?_, ?_⟩
  · intro hr
    rw [hcol hr, (ht hr).1]
  · intro hr
    have h1 : s1.current_level.game_state = s.current_level.game_state := by
      rcases remove_front_level _ _ _ _ (hf hr) with h1 | h1 <;> rw [h1]
    rcases hlvl with h2 | h2 <;> rw [h2] <;> exact h1

/-! ## Collisions end the game -/

/-- C3 fails on the code: from the state built by `main` on an 80-column terminal, with
`w` pressed at every tick and `rand()` returning 0, the 31st `update` leaves
`latest_obstacle = 3` while `max_obstacles = 2`. -/
theorem latest_obstacle_exceeds_max_obstacles :
    (play 80 zero_draws (List.replicate 31 key.w) (main_init 80)).map
      (fun s => (s.current_level.latest_obstacle, s.current_level.max_obstacles,
        s.current_level.game_state)) = some (3, 2, true) := by
  decide!

/-! ## The dinosaur's vertical motion -/

/-- The physics step never leaves the dinosaur below its ground row, and keeps the
ground row. -/
theorem physics_le_ground (gravity : ℚ) (d : dinosaur) :
    (physics gravity d).hitbox.y ≤ (physics gravity d).ground ∧
      (physics gravity d).ground = d.ground := by
  unfold physics
  simp only
  refine ⟨?_, trivial⟩
  split
  · exact le_refl _
  · omega

/-- The animation step changes nothing but `current_frame`. -/
theorem animate_fields (d : dinosaur) :
    (animate d).hitbox = d.hitbox ∧ (animate d).dy = d.dy ∧ (animate d).max_dy = d.max_dy ∧
      (animate d).ground = d.ground := by
  unfold animate
  split <;> exact ⟨rfl, rfl, rfl, rfl⟩

/-- The game loop keeps the dinosaur on or above its ground row. -/
theorem play_le_ground (COLS : Int) (rand : Nat → Nat) :
    ∀ (keys : List key) (s s2 : game), s.dino.hitbox.y ≤ s.dino.ground →
      play COLS rand keys s = some s2 → s2.dino.hitbox.y ≤ s2.dino.ground := by
  intro keys
  induction keys with
  | nil =>
    intro s s2 h0 h
    simp only [play, Option.some.injEq] at h
    subst h
    exact h0
  | cons k ks ih =>
    intro s s2 h0 h
    unfold play at h
    split at h
    · split at h
      · exact absurd h (by simp)
      · rename_i s1 ht
        refine ih s1 s2 ?_ h
        have hu : ∃ s0, update COLS rand s0 = some s1 := by
          unfold tick at ht
          split at ht <;> exact ⟨_, ht⟩
        obtain ⟨s0, hu⟩ := hu
        rw [(update_dino_game_state COLS rand s0 s1 hu).1]
        exact (physics_le_ground _ _).1
    · simp only [Option.some.injEq] at h
      subst h
      exact h0

/-- C4: whatever the dinosaur's row and velocity before the call, after `update` the
dinosaur's `hitbox.y` is at most its ground row (which `update` does not change); hence
along the game loop, where `jump` and `update` are the only operations on the dinosaur,
a dinosaur that starts on or above the ground never sinks below it. -/
theorem update_dino_le_ground (COLS : Int) (rand : Nat → Nat) (s : game) :
    (∀ s2, update COLS rand s = some s2 →
      s2.dino.hitbox.y ≤ s2.dino.ground ∧ s2.dino.ground = s.dino.ground) ∧
    (∀ keys s2, s.dino.hitbox.y ≤ s.dino.ground → play COLS rand keys s = some s2 →
      s2.dino.hitbox.y ≤ s2.dino.ground) := by
  refine ⟨fun s2 h => ?_, fun keys s2 h0 h => play_le_ground COLS rand keys s s2 h0 h⟩
  rw [(update_dino_game_state COLS rand s s2 h).1]
  obtain ⟨h1, h2⟩ := physics_le_ground s.current_level.gravity (animate s.dino)
  exact ⟨h1, h2.trans (animate_fields s.dino).2.2.2⟩

/-- C4 at the start of the game: after one `update`, and after a jump followed by four
more ticks, the dinosaur is on or above the ground row. -/
theorem update_dino_le_ground_witness :
    (∃ s2, update 80 zero_draws (main_init 80) = some s2 ∧
      s2.dino.hitbox.y ≤ s2.dino.ground ∧ s2.dino.ground = (main_init 80).dino.ground) ∧
    (∃ s2, play 80 zero_draws [key.w, key.other, key.other, key.other, key.other]
        (main_init 80) = some s2 ∧ s2.dino.hitbox.y ≤ s2.dino.ground) := by
  have h1 : (update 80 zero_draws (main_init 80)).isSome = true := by decide!
  have h2 : (play 80 zero_draws [key.w, key.other, key.other, key.other, key.other]
      (main_init 80)).isSome = true := by decide!
  obtain ⟨a, ha⟩ := Option.isSome_iff_exists.mp h1
  obtain ⟨b, hb⟩ := Option.isSome_iff_exists.mp h2
  exact ⟨⟨a, ha, (update_dino_le_ground 80 zero_draws (main_init 80)).1 a ha⟩,
    ⟨b, hb, (update_dino_le_ground 80 zero_draws (main_init 80)).2 _ b (by decide) hb⟩⟩

/-- The row after the animation and physics steps: `min(ground, y - d)` for the
displacement `d` of the velocity. -/
theorem physics_row (gravity : ℚ) (d : dinosaur) :
    (physics gravity (animate d)).hitbox.y =
      min d.ground (d.hitbox.y - displacement d.dy) := by
  obtain ⟨hh, hdy, -, hg⟩ := animate_fields d
  simp only [physics, moved_y, displacement, hh, hdy, hg]
  split <;> split <;> omega

/-- The velocity after the animation and physics steps: `dy + gravity` off the ground
row, 0 on it. -/
theorem physics_velocity (gravity : ℚ) (d : dinosaur) :
    (physics gravity (animate d)).dy =
      if (physics gravity (animate d)).hitbox.y ≠ d.ground then d.dy + gravity else 0 := by
  obtain ⟨-, hdy, -, hg⟩ := animate_fields d
  simp only [physics, hdy, hg]

/-- C5: one `update` moves the dinosaur from row `y` to `min(ground, y - d)`, where `d`
is `floor(dy)` if `dy > 0` and `ceil(dy)` otherwise, and sets the velocity to
`dy + gravity` if the new row is not the ground row and to 0 if it is; so after any
`update` that leaves the dinosaur on the ground row its velocity is 0. -/
theorem update_dino_motion (COLS : Int) (rand : Nat → Nat) (s s2 : game)
    (h : update COLS rand s = some s2) :
    s2.dino.hitbox.y = min s.dino.ground (s.dino.hitbox.y - displacement s.dino.dy) ∧
    (s2.dino.hitbox.y ≠ s.dino.ground → s2.dino.dy = s.dino.dy + s.current_level.gravity) ∧
    (s2.dino.hitbox.y = s.dino.ground → s2.dino.dy = 0) ∧
    (s2.dino.hitbox.y = s2.dino.ground → s2.dino.dy = 0) := by
  have hy := physics_row s.current_level.gravity s.dino
  have hv := physics_velocity s.current_level.gravity s.dino
  have hgr : (physics s.current_level.gravity (animate s.dino)).ground = s.dino.ground :=
    (physics_le_ground _ _).2.trans (animate_fields s.dino).2.2.2
  rw [(update_dino_game_state COLS rand s s2 h).1]
  refine ⟨hy, fun hne => ?_, fun heq => ?_, fun heq => ?_⟩
  · rw [hv, if_pos hne]
  · rw [hv, if_neg (not_not.mpr heq)]
  · rw [hgr] at heq
    rw [hv, if_neg (not_not.mpr heq)]

/-- C5 on the first two ticks of a jump from the state built by `main`: the dinosaur
rises from row 15 to row 12 and then to row 10 with velocity 13/5 and then 11/5. -/
theorem update_dino_motion_witness :
    ∃ s1 s2, tick 80 zero_draws key.w (main_init 80) = some s1 ∧
      update 80 zero_draws s1 = some s2 ∧
      s1.dino.hitbox.y = 12 ∧ s1.dino.dy = 13 / 5 ∧
      s2.dino.hitbox.y = min s1.dino.ground (s1.dino.hitbox.y - displacement s1.dino.dy) ∧
      (s2.dino.hitbox.y ≠ s1.dino.ground →
        s2.dino.dy = s1.dino.dy + s1.current_level.gravity) ∧
      (s2.dino.hitbox.y = s1.dino.ground → s2.dino.dy = 0) ∧
      (s2.dino.hitbox.y = s2.dino.ground → s2.dino.dy = 0) := by
  have h1 : (tick 80 zero_draws key.w (main_init 80)).map
      (fun s => (s.dino.hitbox.y, s.dino.dy)) = some (12, 13 / 5) := by decide!
  obtain ⟨s1, hs1, hf⟩ := Option.map_eq_some'.mp h1
  simp only [Prod.mk.injEq] at hf
  have h2 : ((tick 80 zero_draws key.w (main_init 80)).bind
      (update 80 zero_draws)).isSome = true := by decide!
  rw [hs1] at h2
  obtain ⟨s2, hs2⟩ := Option.isSome_iff_exists.mp h2
  exact ⟨s1, s2, hs1, hs2, hf.1, hf.2, update_dino_motion 80 zero_draws s1 s2 hs2⟩

/-! ## Removal of the front obstacle -/

/-- The two outcomes of the removal step: nothing changes, and then slot 0 is `NULL` or
holds an obstacle with `hitbox.x > 0`; or slot 0 holds an obstacle with `hitbox.x <= 0`,
the first `max_obstacles` slots take the content of their right neighbour and
`latest_obstacle` drops by one. -/
theorem remove_front_spec (obs obs1 : slots) (lvl lvl1 : level)
    (h : remove_front obs lvl = some (obs1, lvl1)) :
    (obs1 = obs ∧ lvl1 = lvl ∧ (obs 0 = none ∨ ∃ o, obs 0 = some o ∧ 0 < o.hitbox.x)) ∨
    (∃ o, obs 0 = some o ∧ o.hitbox.x ≤ 0 ∧ 0 ≤ lvl.max_obstacles ∧
      lvl1 = { lvl with latest_obstacle := lvl.latest_obstacle - 1 } ∧
      ∀ i : Nat, obs1 i = if (i : Int) < lvl.max_obstacles then obs (i + 1) else obs i) := by
  unfold remove_front at h
  split at h
  · rename_i h0
    simp only [Option.some.injEq, Prod.mk.injEq] at h
    exact Or.inl ⟨h.1.symm, h.2.symm, Or.inl h0⟩
  · rename_i o h0
    split at h
    · rename_i hx
      split at h
      · exact absurd h (by simp)
      · rename_i hmax
        simp only [Option.some.injEq, Prod.mk.injEq] at h
        refine Or.inr ⟨o, h0, hx, by omega, h.2.symm, fun i => ?_⟩
        rw [← h.1]
    · rename_i hx
      simp only [Option.some.injEq, Prod.mk.injEq] at h
      exact Or.inl ⟨h.1.symm, h.2.symm, Or.inr ⟨o, h0, by omega⟩⟩

/-- C6: one call to `update` removes at most one obstacle: before the generation of a
new obstacle `latest_obstacle` is what it was or one less. When it is unchanged every
slot holds the obstacle it held. When it is one less, the obstacle in slot 0 had
`hitbox.x <= 0` after that tick's scroll, each of the `max_obstacles` slots after the
front moved one slot toward the front (these are all the remaining obstacles when
`latest_obstacle <= max_obstacles + 1`), so their order is kept. An obstacle in slot 0
with `hitbox.x > 0` after the scroll is not removed, and the generation step that ends
`update` removes nothing. -/
theorem update_removes_front_only (COLS : Int) (rand : Nat → Nat) (s s2 : game)
    (h : update COLS rand s = some s2) :
    ∃ r s1, before_generate s = some (r, s1) ∧
      (s1.current_level.latest_obstacle = s.current_level.latest_obstacle ∨
        s1.current_level.latest_obstacle = s.current_level.latest_obstacle - 1) ∧
      (s1.current_level.latest_obstacle = s.current_level.latest_obstacle →
        ∀ j, s1.obstacles j = s.obstacles j ∨ s1.obstacles j = scrolled s j) ∧
      (s1.current_level.latest_obstacle = s.current_level.latest_obstacle - 1 →
        (∃ o, scrolled s 0 = some o ∧ o.hitbox.x ≤ 0) ∧
        (∀ i : Nat, (i : Int) < s.current_level.max_obstacles →
          s1.obstacles i = scrolled s (i + 1)) ∧
        (s.current_level.latest_obstacle ≤ s.current_level.max_obstacles + 1 →
          ∀ i : Nat, (i : Int) + 1 < s.current_level.latest_obstacle →
            s1.obstacles i = scrolled s (i + 1))) ∧
      (∀ o, scrolled s 0 = some o → 0 < o.hitbox.x →
        s1.current_level.latest_obstacle = s.current_level.latest_obstacle) ∧
      (∀ i : Nat, (i : Int) < s1.current_level.latest_obstacle →
        s2.obstacles i = s1.obstacles i) ∧
      (s2.current_level.latest_obstacle = s1.current_level.latest_obstacle ∨
        s2.current_level.latest_obstacle = s1.current_level.latest_obstacle + 1) := by
  obtain ⟨r, s1, hb, -, -, hkeep, hlvl⟩ := update_spec COLS rand s s2 h
  obtain ⟨-, -, -, ht, hf⟩ := before_generate_spec s r s1 hb
  have hlast : s2.current_level.latest_obstacle = s1.current_level.latest_obstacle ∨
      s2.current_level.latest_obstacle = s1.current_level.latest_obstacle + 1 := by
    rcases hlvl with h2 | h2 <;> rw [h2]
    · exact Or.inl rfl
    · exact Or.inr rfl
  refine ⟨r, s1, hb, ?_⟩
  cases r with
  | true =>
    obtain ⟨hl, hs⟩ := ht rfl
    have hn : s1.current_level.latest_obstacle = s.current_level.latest_obstacle := by
      rw [hl]
    exact ⟨Or.inl hn, fun _ => hs, fun h1 => by omega, fun _ _ _ => hn, hkeep, hlast⟩
  | false =>
    rcases remove_front_spec _ _ _ _ (hf rfl) with ⟨ho, hl, hfront⟩ | ⟨o, ho, hx, hmax, hl, hsh⟩
    · have hn : s1.current_level.latest_obstacle = s.current_level.latest_obstacle := by
        rw [hl]
      exact ⟨Or.inl hn, fun _ j => Or.inr (by rw [ho]), fun h1 => by omega,
        fun _ _ _ => hn, hkeep, hlast⟩
    · have hn : s1.current_level.latest_obstacle = s.current_level.latest_obstacle - 1 := by
        rw [hl]
      have hshift : ∀ i : Nat, (i : Int) < s.current_level.max_obstacles →
          s1.obstacles i = scrolled s (i + 1) := by
        intro i hi
        rw [hsh i, if_pos hi]
      refine ⟨Or.inr hn, fun h1 => by omega, fun _ => ⟨⟨o, ho, hx⟩, hshift, ?_⟩, ?_, hkeep,
        hlast⟩
      · intro hcap i hi
        exact hshift i (by omega)
      · intro o2 ho2 hx2
        rw [ho] at ho2
        cases ho2
        omega

/-- C6 on a state with two obstacles whose front one reaches column 0: the front one is
removed, the back one moves from slot 1 to slot 0, and one obstacle is left. -/
theorem update_removes_front_only_witness :
    ∃ s2, update 80 zero_draws removal_scene = some s2 ∧
      s2.current_level.latest_obstacle = 1 ∧
      s2.obstacles 0 = scrolled removal_scene 1 ∧
      ∃ r s1, before_generate removal_scene = some (r, s1) ∧
        (s1.current_level.latest_obstacle = removal_scene.current_level.latest_obstacle ∨
          s1.current_level.latest_obstacle =
            removal_scene.current_level.latest_obstacle - 1) ∧
        (s1.current_level.latest_obstacle =
            removal_scene.current_level.latest_obstacle - 1 →
          ∃ o, scrolled removal_scene 0 = some o ∧ o.hitbox.x ≤ 0) := by
  have hv : (update 80 zero_draws removal_scene).map
      (fun s => (s.current_level.latest_obstacle, s.obstacles 0)) =
      some (1, scrolled removal_scene 1) := by decide!
  obtain ⟨s2, hs2, hf⟩ := Option.map_eq_some'.mp hv
  simp only [Prod.mk.injEq] at hf
  obtain ⟨r, s1, hb, hcount, -, hrem, -⟩ :=
    update_removes_front_only 80 zero_draws removal_scene s2 hs2
  exact ⟨s2, hs2, hf.1, hf.2, r, s1, hb, hcount, fun h => (hrem h).1⟩

/-! ## `update` returns on well-formed states -/

/-- The loop returns when the slots it visits hold obstacles. -/
theorem scroll_loop_returns (box : rect) (speed : ℚ) :
    ∀ (k i : Nat) (obs : slots), (∀ j, i ≤ j → j < i + k → obs j ≠ none) →
      ∃ r obs1, scroll_loop box speed k i obs = some (r, obs1) := by
  intro k
  induction k with
  | zero => intro i obs _; exact ⟨false, obs, rfl⟩
  | succ k ih =>
    intro i obs hobs
    unfold scroll_loop
    cases hoi : obs i with
    | none => exact absurd hoi (hobs i (le_refl _) (by omega))
    | some o =>
      simp only
      split
      · exact ⟨_, _, rfl⟩
      · apply ih
        intro j h1 h2
        have hj : j ≠ i := by omega
        rw [Function.update_noteq hj]
        exact hobs j (by omega) (by omega)

/-- Scrolling keeps a slot `NULL` or occupied. -/
theorem scrolled_eq_none_iff (s : game) (j : Nat) :
    scrolled s j = none ↔ s.obstacles j = none := by
  unfold scrolled
  split
  · exact Option.map_eq_none'
  · exact Iff.rfl

/-- The call `generate_obstacle` returns when `variability` is not 0 and, slot 0 being
occupied, slot `latest_obstacle - 1` is occupied too. -/
theorem generate_obstacle_returns (COLS : Int) (rand : Nat → Nat) (obs : slots)
    (lvl : level) (n : Nat) (hv : lvl.variability ≠ 0)
    (hback : obs 0 ≠ none → slot_at obs (lvl.latest_obstacle - 1) ≠ none) :
    ∃ res n1, generate_obstacle COLS rand obs lvl n = some (res, n1) := by
  unfold generate_obstacle
  split
  · exact ⟨_, _, rfl⟩
  · cases h0 : obs 0 with
    | none => exact ⟨_, _, rfl⟩
    | some front =>
      simp only
      cases hb : slot_at obs (lvl.latest_obstacle - 1) with
      | none => exact absurd hb (hback (by simp [h0]))
      | some back =>
        simp only [if_neg hv]
        split
        · exact ⟨_, _, rfl⟩
        · split
          · split
            · exact ⟨_, _, rfl⟩
            · exact ⟨_, _, rfl⟩
          · exact ⟨_, _, rfl⟩

/-- On a well-formed state `update` returns a state. -/
theorem update_returns (COLS : Int) (rand : Nat → Nat) (s : game) (hwf : well_formed s) :
    ∃ s2, update COLS rand s = some s2 := by
  obtain ⟨hv, h0, hcap, hact, hfree⟩ := hwf
  obtain ⟨r, obs1, hl⟩ := scroll_loop_returns
    (physics s.current_level.gravity (animate s.dino)).hitbox s.current_level.speed
    s.current_level.latest_obstacle.toNat 0 s.obstacles
    (fun j _ hj => hact j (by omega))
  cases r with
  | true =>
    simp only [update, before_generate, hl]
    exact ⟨_, rfl⟩
  | false =>
    have hsc := scroll_loop_false_eq s _ _ hl
    subst hsc
    have hrm : ∃ obs2 lvl2, remove_front (scrolled s) s.current_level = some (obs2, lvl2) := by
      unfold remove_front
      split
      · exact ⟨_, _, rfl⟩
      · split
        · rw [if_neg (by omega)]
          exact ⟨_, _, rfl⟩
        · exact ⟨_, _, rfl⟩
    obtain ⟨obs2, lvl2, hrm⟩ := hrm
    have hgen : lvl2.variability ≠ 0 ∧ 0 ≤ lvl2.latest_obstacle ∧
        (obs2 0 ≠ none → slot_at obs2 (lvl2.latest_obstacle - 1) ≠ none) := by
      rcases remove_front_spec _ _ _ _ hrm with ⟨ho, hlv, -⟩ | ⟨o, ho, -, hmax, hlv, hsh⟩
      · subst ho; subst hlv
        refine ⟨hv, h0, fun hne => ?_⟩
        have h1 : 1 ≤ s.current_level.latest_obstacle := by
          by_contra hc
          exact hne ((scrolled_eq_none_iff s 0).mpr (hfree 0 (by omega)))
        unfold slot_at
        rw [if_neg (by omega)]
        exact fun hc => hact _ (by omega) ((scrolled_eq_none_iff s _).mp hc)
      · subst hlv
        have h1 : 1 ≤ s.current_level.latest_obstacle := by
          by_contra hc
          have := (scrolled_eq_none_iff s 0).mpr (hfree 0 (by omega))
          rw [ho] at this
          exact absurd this (by simp)
        refine ⟨hv, by simp only; omega, fun hne => ?_⟩
        simp only
        have h2 : 2 ≤ s.current_level.latest_obstacle := by
          by_contra hc
          apply hne
          rw [hsh 0]
          split
          · exact (scrolled_eq_none_iff s _).mpr (hfree _ (by omega))
          · exact (scrolled_eq_none_iff s _).mpr (hfree _ (by omega))
        unfold slot_at
        rw [if_neg (by omega), hsh, if_pos (by omega)]
        exact fun hc => hact _ (by omega) ((scrolled_eq_none_iff s _).mp hc)
    obtain ⟨hv2, hn2, hb2⟩ := hgen
    obtain ⟨res, n1, hg⟩ := generate_obstacle_returns COLS rand obs2 lvl2 s.calls hv2 hb2
    unfold update before_generate
    simp only [hl, hrm, hg]
    cases res with
    | none => exact ⟨_, rfl⟩
    | some cactus =>
      simp only [if_neg (not_lt.mpr hn2)]
      exact ⟨_, rfl⟩

/-- The state built by `main` is well-formed, so the first `update` returns. -/
theorem main_init_well_formed (COLS : Int) : well_formed (main_init COLS) :=
  ⟨by simp [main_init], le_refl _, by simp [main_init],
    fun j hj => absurd hj (by simp [main_init]), fun _ _ => rfl⟩

/-! ## Generation of obstacles -/

/-- The rule of `generate_obstacle` on a well-formed set: in a state whose slot 0 is
occupied exactly when `latest_obstacle >= 1` and whose slot `latest_obstacle - 1` then
holds the back-most obstacle `back`, and with `variability` not 0, the call returns, and
it returns `NULL` exactly when `latest_obstacle > max_obstacles`, or the set is non-empty
and `back.hitbox.x > COLS - min_obstacle_distance`, or the set is non-empty,
`back.hitbox.x > COLS - max_obstacle_distance` and the draw `rand() % variability` is
not 0; on an empty set (with `max_obstacles >= 0`) it returns an obstacle whatever the
draws. -/
theorem generate_obstacle_none_iff (COLS : Int) (rand : Nat → Nat) (obs : slots)
    (lvl : level) (n : Nat) (back : obstacle)
    (hv : lvl.variability ≠ 0)
    (hne : obs 0 ≠ none ↔ 1 ≤ lvl.latest_obstacle)
    (hback : 1 ≤ lvl.latest_obstacle →
      slot_at obs (lvl.latest_obstacle - 1) = some back) :
    (∃ res n1, generate_obstacle COLS rand obs lvl n = some (res, n1) ∧
      (res = none ↔
        (lvl.latest_obstacle > lvl.max_obstacles ∨
         (1 ≤ lvl.latest_obstacle ∧ back.hitbox.x > COLS - lvl.min_obstacle_distance) ∨
         (1 ≤ lvl.latest_obstacle ∧ back.hitbox.x > COLS - lvl.max_obstacle_distance ∧
           Int.tmod (rand n) lvl.variability ≠ 0)))) ∧
    (lvl.latest_obstacle = 0 → 0 ≤ lvl.max_obstacles →
      ∃ o n1, generate_obstacle COLS rand obs lvl n = some (some o, n1)) := by
  have hroll : 0 ≤ Int.tmod (rand n) lvl.variability :=
    Int.tmod_nonneg _ (Int.ofNat_nonneg _)
  constructor
  · unfold generate_obstacle
    by_cases hcap : lvl.latest_obstacle > lvl.max_obstacles
    · rw [if_pos hcap]
      exact ⟨none, n, rfl, by simp [hcap]⟩
    · rw [if_neg hcap]
      cases h0 : obs 0 with
      | none =>
        have hempty : ¬ 1 ≤ lvl.latest_obstacle := fun h => (hne.mpr h) h0
        exact ⟨_, _, rfl, by simp [hcap, hempty]⟩
      | some front =>
        have hfull : 1 ≤ lvl.latest_obstacle := hne.mp (by simp [h0])
        simp only [hback hfull]
        by_cases hmin : back.hitbox.x > COLS - lvl.min_obstacle_distance
        · rw [if_pos hmin]
          exact ⟨none, n, rfl, by simp [hfull, hmin]⟩
        · rw [if_neg hmin]
          by_cases hmax : back.hitbox.x > COLS - lvl.max_obstacle_distance
          · rw [if_pos hmax, if_neg hv]
            by_cases hr : Int.tmod (rand n) lvl.variability > 0
            · rw [if_pos hr]
              have : Int.tmod (rand n) lvl.variability ≠ 0 := by omega
              exact ⟨none, n + 1, rfl, by simp [hfull, hmax, this]⟩
            · rw [if_neg hr]
              have : Int.tmod (rand n) lvl.variability = 0 := by omega
              exact ⟨_, _, rfl, by simp [hcap, hmin, this]⟩
          · rw [if_neg hmax]
            exact ⟨_, _, rfl, by simp [hcap, hmin, hmax]⟩
  · intro hlat hmax
    have h0 : obs 0 = none := by
      by_contra hc
      have := hne.mp hc
      omega
    unfold generate_obstacle
    rw [if_neg (by omega)]
    simp only [h0]
    exact ⟨_, _, rfl⟩

/-- The rule on the level built by `main`: with no obstacle the call spawns, and with one
obstacle at column 70 (right of `COLS - min_obstacle_distance = 40`) it returns `NULL`. -/
theorem generate_obstacle_none_iff_witness :
    (∃ o n1, generate_obstacle 80 zero_draws (main_init 80).obstacles
      (main_init 80).current_level 0 = some (some o, n1)) ∧
    (∃ res n1, generate_obstacle 80 zero_draws ended_scene.obstacles
      ended_scene.current_level 1 = some (res, n1) ∧
      (res = none ↔
        (ended_scene.current_level.latest_obstacle > ended_scene.current_level.max_obstacles ∨
         (1 ≤ ended_scene.current_level.latest_obstacle ∧
           (template 80 0).hitbox.x > 80 - ended_scene.current_level.min_obstacle_distance) ∨
         (1 ≤ ended_scene.current_level.latest_obstacle ∧
           (template 80 0).hitbox.x > 80 - ended_scene.current_level.max_obstacle_distance ∧
           Int.tmod (zero_draws 1) ended_scene.current_level.variability ≠ 0)))) :=
  ⟨(generate_obstacle_none_iff 80 zero_draws (main_init 80).obstacles
      (main_init 80).current_level 0 (template 80 0) (by decide) (by decide)
      (fun h => absurd h (by decide))).2 (by decide) (by decide),
   (generate_obstacle_none_iff 80 zero_draws ended_scene.obstacles
      ended_scene.current_level 1 (template 80 0) (by decide) (by decide)
      (fun _ => by decide)).1⟩

/-- C7 fails on the code. From the state built by `main` on an 80-column terminal, with
`w` pressed at every tick and `rand()` returning 0 five times and 1 afterwards, the state
after 65 ticks has one obstacle, at column 2, and an occupied slot 1. In the 66th call of
`update` that obstacle is removed, so `generate_obstacle` is called on an empty set
(`latest_obstacle = 0`) whose slot 0 is occupied; it takes the branch of a non-empty set
and reads `obstacles[-1]`: the call returns no obstacle (it has no result), and neither
has the 66th `update`. -/
theorem generate_obstacle_on_stale_slot :
    (play 80 late_draws (List.replicate 65 key.w) (main_init 80)).map
      (fun s => (s.current_level.latest_obstacle, s.current_level.game_state,
        (s.obstacles 0).map (fun o => o.hitbox.x), (s.obstacles 1).isSome)) =
      some (1, true, some 2, true) ∧
    (play 80 late_draws (List.replicate 65 key.w) (main_init 80)).bind
      (fun s => (before_generate { s with dino := jump s.dino }).map
        (fun p => (p.1, p.2.current_level.latest_obstacle,
          decide (p.2.current_level.latest_obstacle ≤ p.2.current_level.max_obstacles),
          (p.2.obstacles 0).isSome,
          (generate_obstacle 80 late_draws p.2.obstacles p.2.current_level
            p.2.calls).isSome))) =
      some (false, 0, true, true, false) ∧
    (play 80 late_draws (List.replicate 66 key.w) (main_init 80)).isSome = false := by
  decide!

/-- The three templates: widths 9, 6 and 15, height 4, row 15, left column
`COLS - (width + 1)` and four glyph rows. -/
theorem template_spec (COLS : Int) (r : Nat) (hr : r < 3) :
    (r = 0 → (template COLS r).hitbox.width = 9) ∧
    (r = 1 → (template COLS r).hitbox.width = 6) ∧
    (r = 2 → (template COLS r).hitbox.width = 15) ∧
    (template COLS r).hitbox.height = 4 ∧ (template COLS r).hitbox.y = 15 ∧
    (template COLS r).hitbox.x = COLS - ((template COLS r).hitbox.width + 1) ∧
    ((template COLS r).ascii.length : Int) = (template COLS r).hitbox.height := by
  have h3 : r = 0 ∨ r = 1 ∨ r = 2 := by omega
  rcases h3 with h | h | h <;> subst h <;>
    simp [template, obstacle_constructor]

/-- C8: an obstacle returned by `generate_obstacle` is the template chosen by the last
draw of the call, `r = rand() % 3`: width 9 for `r = 0`, 6 for `r = 1`, 15 for `r = 2`,
in every case with height 4, row `y = 15`, `hitbox.x = COLS - (width + 1)` and as many
glyph rows as its height. -/
theorem generate_obstacle_template (COLS : Int) (rand : Nat → Nat) (obs : slots)
    (lvl : level) (n n1 : Nat) (o : obstacle)
    (h : generate_obstacle COLS rand obs lvl n = some (some o, n1)) :
    n < n1 ∧ n1 ≤ n + 2 ∧ o = template COLS (rand (n1 - 1) % 3) ∧
    (rand (n1 - 1) % 3 = 0 → o.hitbox.width = 9) ∧
    (rand (n1 - 1) % 3 = 1 → o.hitbox.width = 6) ∧
    (rand (n1 - 1) % 3 = 2 → o.hitbox.width = 15) ∧
    o.hitbox.height = 4 ∧ o.hitbox.y = 15 ∧
    o.hitbox.x = COLS - (o.hitbox.width + 1) ∧
    (o.ascii.length : Int) = o.hitbox.height := by
  have key : n < n1 ∧ n1 ≤ n + 2 ∧ o = template COLS (rand (n1 - 1) % 3) := by
    unfold generate_obstacle at h
    split at h
    · simp at h
    · split at h
      · simp only [Option.some.injEq, Prod.mk.injEq] at h
        obtain ⟨h1, h2⟩ := h
        subst h2
        exact ⟨by omega, by omega, by simpa using h1.symm⟩
      · split at h
        · simp at h
        · split at h
          · simp at h
          · split at h
            · split at h
              · simp at h
              · split at h
                · simp at h
                · simp only [Option.some.injEq, Prod.mk.injEq] at h
                  obtain ⟨h1, h2⟩ := h
                  subst h2
                  exact ⟨by omega, by omega, by simpa using h1.symm⟩
            · simp only [Option.some.injEq, Prod.mk.injEq] at h
              obtain ⟨h1, h2⟩ := h
              subst h2
              exact ⟨by omega, by omega, by simpa using h1.symm⟩
  obtain ⟨hn, hn2, ho⟩ := key
  have ht := template_spec COLS (rand (n1 - 1) % 3) (Nat.mod_lt _ (by decide))
  rw [← ho] at ht
  exact ⟨hn, hn2, ho, ht⟩

/-- C8 on the first call made from the state built by `main`, where `rand()` returns
0: the obstacle has width 9 and stands at column 70. -/
theorem generate_obstacle_template_witness :
    generate_obstacle 80 zero_draws (main_init 80).obstacles (main_init 80).current_level 0 =
      some (some (template 80 0), 1) ∧
    (template 80 0).hitbox.width = 9 ∧ (template 80 0).hitbox.height = 4 ∧
    (template 80 0).hitbox.y = 15 ∧ (template 80 0).hitbox.x = 70 ∧
    ((template 80 0).ascii.length : Int) = (template 80 0).hitbox.height :=
  have h : generate_obstacle 80 zero_draws (main_init 80).obstacles
      (main_init 80).current_level 0 = some (some (template 80 0), 1) := by decide
  have t := generate_obstacle_template 80 zero_draws (main_init 80).obstacles
    (main_init 80).current_level 0 1 (template 80 0) h
  ⟨h, t.2.2.2.1 (by decide), t.2.2.2.2.2.2.1, t.2.2.2.2.2.2.2.1, by decide,
    t.2.2.2.2.2.2.2.2.2⟩

/-! ## The ended state -/

/-- C10 as stated fails: in a state with `game_state == false`, `update` still moves the
dinosaur (row 12 to row 10, velocity 13/5 to 11/5) and the obstacle (column 70 to 68).
The game loop reaches that call: `w` at the first tick, Ctrl-Z at the second. -/
theorem update_not_noop_when_ended :
    ended_scene.current_level.game_state = false ∧
    (ended_scene.dino.hitbox.y, ended_scene.dino.dy,
      (ended_scene.obstacles 0).map (fun o => o.hitbox.x)) = (12, 13 / 5, some 70) ∧
    (update 80 zero_draws ended_scene).map
      (fun s => (s.dino.hitbox.y, s.dino.dy, (s.obstacles 0).map (fun o => o.hitbox.x))) =
      some (10, 11 / 5, some 68) ∧
    (play 80 zero_draws [key.w, key.ctrlz] (main_init 80)).map
      (fun s => (s.current_level.game_state, s.dino.hitbox.y, s.dino.dy,
        (s.obstacles 0).map (fun o => o.hitbox.x))) = some (false, 10, 11 / 5, some 68) := by
  decide!

/-- C10, amended: `update` never sets `game_state` to true, so a call to `update` in a
state with `game_state == false` returns a state with `game_state == false`; the rest
of the state is updated as in a running game. -/
theorem update_keeps_ended (COLS : Int) (rand : Nat → Nat) (s s2 : game)
    (h : update COLS rand s = some s2) (hend : s.current_level.game_state = false) :
    s2.current_level.game_state = false := by
  obtain ⟨-, r, s1, -, ht, hf⟩ := update_dino_game_state COLS rand s s2 h
  cases r with
  | true => exact ht rfl
  | false => rw [hf rfl, hend]

/-- C10, amended, on the ended state of `ended_scene`. -/
theorem update_keeps_ended_witness :
    ∃ s2, update 80 zero_draws ended_scene = some s2 ∧
      s2.current_level.game_state = false := by
  have hs : (update 80 zero_draws ended_scene).isSome = true := by decide!
  obtain ⟨s2, hs2⟩ := Option.isSome_iff_exists.mp hs
  exact ⟨s2, hs2, update_keeps_ended 80 zero_draws ended_scene s2 hs2 (by decide)⟩


/-! ## Removal happens at the left edge -/

/-- C12 as stated fails: the front obstacle of `removal_scene`, of width 9, is at column
0 after the scroll, so `hitbox.x + hitbox.width = 9 > 0`, and `update` removes it: the
count goes from 2 to 1 and slot 0 then holds the former second obstacle. -/
theorem removed_while_inside :
    (scrolled removal_scene 0).map (fun o => (o.hitbox.x, o.hitbox.x + o.hitbox.width)) =
      some (0, 9) ∧
    removal_scene.current_level.latest_obstacle = 2 ∧
    (before_generate removal_scene).map
      (fun p => (p.1, p.2.current_level.latest_obstacle, p.2.obstacles 0)) =
      some (false, 1, scrolled removal_scene 1) := by
  decide!

/-- C12, amended: an obstacle is removed when its left edge has reached the left edge of
the screen: `update` removes an obstacle (the count before the generation step is one
less) exactly when the tick has no collision and the obstacle in slot 0 satisfies
`hitbox.x <= 0` after that tick's scroll; nothing is required of
`hitbox.x + hitbox.width`. -/
theorem removal_iff_left_edge (COLS : Int) (rand : Nat → Nat) (s s2 : game)
    (h : update COLS rand s = some s2) :
    ∃ r s1, before_generate s = some (r, s1) ∧
      (s1.current_level.latest_obstacle = s.current_level.latest_obstacle - 1 ↔
        (r = false ∧ ∃ o, scrolled s 0 = some o ∧ o.hitbox.x ≤ 0)) := by
  obtain ⟨r, s1, hb, -⟩ := update_spec COLS rand s s2 h
  obtain ⟨-, -, -, ht, hf⟩ := before_generate_spec s r s1 hb
  refine ⟨r, s1, hb, ?_⟩
  cases r with
  | true =>
    have hl := (ht rfl).1
    constructor
    · intro h1
      rw [hl] at h1
      simp only at h1
      omega
    · rintro ⟨h1, -⟩
      exact absurd h1 (by simp)
  | false =>
    rcases remove_front_spec _ _ _ _ (hf rfl) with ⟨-, hl, hfront⟩ | ⟨o, ho, hx, -, hl, -⟩
    · constructor
      · intro h1
        rw [hl] at h1
        omega
      · rintro ⟨-, o, ho, hx⟩
        rcases hfront with h0 | ⟨o2, ho2, hx2⟩
        · rw [ho] at h0
          exact absurd h0 (by simp)
        · rw [ho] at ho2
          cases ho2
          omega
    · constructor
      · intro _
        exact ⟨rfl, o, ho, hx⟩
      · intro _
        rw [hl]

/-- C12, amended, on `removal_scene`: the front obstacle reaches column 0 and is
removed. -/
theorem removal_iff_left_edge_witness :
    ∃ s2, update 80 zero_draws removal_scene = some s2 ∧
      ∃ r s1, before_generate removal_scene = some (r, s1) ∧
        (s1.current_level.latest_obstacle =
            removal_scene.current_level.latest_obstacle - 1 ↔
          (r = false ∧ ∃ o, scrolled removal_scene 0 = some o ∧ o.hitbox.x ≤ 0)) := by
  have hs : (update 80 zero_draws removal_scene).isSome = true := by decide!
  obtain ⟨s2, hs2⟩ := Option.isSome_iff_exists.mp hs
  exact ⟨s2, hs2, removal_iff_left_edge 80 zero_draws removal_scene s2 hs2⟩

/-! ## The shape of the collision test -/

/-- C13: when `A.y + A.height = B.y` (the bottom edge of `A` is exactly on the top row of
`B`), `detect_object_collisions A B` is false, whatever the columns and widths. -/
theorem detect_object_collisions_grazing (A B : rect) (h : A.y + A.height = B.y) :
    detect_object_collisions A B = false := by
  unfold detect_object_collisions
  rw [if_neg]
  rintro ⟨-, -, h3⟩
  omega

/-- C13 on a box standing on row 11 of height 4 above an obstacle on row 15, in the same
columns. -/
theorem detect_object_collisions_grazing_witness :
    detect_object_collisions { height := 4, width := 9, y := 11, x := 40 }
      { height := 4, width := 9, y := 15, x := 40 } = false :=
  detect_object_collisions_grazing _ _ (by decide)

/-- The test of `detect_object_collisions` is its horizontal part together with
`left.y + left.height > right.y`. -/
theorem detect_object_collisions_eq (left right : rect) :
    detect_object_collisions left right =
      (horizontal_overlap left right && decide (left.y + left.height > right.y)) := by
  unfold detect_object_collisions horizontal_overlap
  by_cases h1 : left.x + left.width ≥ right.x <;>
  by_cases h2 : left.x < right.x + right.width <;>
  by_cases h3 : left.y + left.height > right.y <;> simp [h1, h2, h3]

/-- C14 as stated fails: for `A` in columns 0 to 4 and `B` starting at column 5, where the
right edge of `A` touches the left column of `B`, the horizontal term holds for `(A, B)`
and fails for `(B, A)`. -/
theorem horizontal_overlap_not_symmetric :
    horizontal_overlap { height := 4, width := 5, y := 0, x := 0 }
      { height := 4, width := 5, y := 0, x := 5 } = true ∧
    horizontal_overlap { height := 4, width := 5, y := 0, x := 5 }
      { height := 4, width := 5, y := 0, x := 0 } = false := by
  decide

/-- C14, amended: the horizontal term of `detect_object_collisions` is symmetric under
swapping the boxes whenever neither box starts exactly where the other ends
(`A.x + A.width ≠ B.x` and `B.x + B.width ≠ A.x`); when `A.x + A.width = B.x` the term
holds for `(A, B)` as soon as `B.width > -A.width`, and fails for `(B, A)`. -/
theorem horizontal_overlap_symm (A B : rect) :
    (A.x + A.width ≠ B.x → B.x + B.width ≠ A.x →
      ((A.x + A.width ≥ B.x ∧ A.x < B.x + B.width) ↔
        (B.x + B.width ≥ A.x ∧ B.x < A.x + A.width)) ∧
      horizontal_overlap A B = horizontal_overlap B A) ∧
    (A.x + A.width = B.x → horizontal_overlap B A = false ∧
      (horizontal_overlap A B = true ↔ 0 < A.width + B.width)) := by
  unfold horizontal_overlap
  constructor
  · intro h1 h2
    have hiff : (A.x + A.width ≥ B.x ∧ A.x < B.x + B.width) ↔
        (B.x + B.width ≥ A.x ∧ B.x < A.x + A.width) := by
      constructor <;> rintro ⟨h3, h4⟩ <;> constructor <;> omega
    exact ⟨hiff, by simp only [hiff]⟩
  · intro h
    constructor
    · simp only [decide_eq_false_iff_not, not_and, not_lt]
      intro _
      omega
    · simp only [decide_eq_true_eq]
      constructor
      · rintro ⟨-, h2⟩; omega
      · intro h2; constructor <;> omega

/-- C14, amended, on two boxes that overlap in columns 3 and 4, and on the touching
boxes of the counterexample. -/
theorem horizontal_overlap_symm_witness :
    (horizontal_overlap { height := 4, width := 5, y := 0, x := 0 }
        { height := 4, width := 5, y := 0, x := 3 } =
      horizontal_overlap { height := 4, width := 5, y := 0, x := 3 }
        { height := 4, width := 5, y := 0, x := 0 }) ∧
    horizontal_overlap { height := 4, width := 5, y := 0, x := 5 }
      { height := 4, width := 5, y := 0, x := 0 } = false :=
  ⟨((horizontal_overlap_symm { height := 4, width := 5, y := 0, x := 0 }
      { height := 4, width := 5, y := 0, x := 3 }).1 (by decide) (by decide)).2,
   ((horizontal_overlap_symm { height := 4, width := 5, y := 0, x := 0 }
      { height := 4, width := 5, y := 0, x := 5 }).2 (by decide)).1⟩


/-! ## The distance between the back-most obstacle and a new one -/

/-- An obstacle returned by `generate_obstacle` is a template. -/
theorem generate_obstacle_eq_template (COLS : Int) (rand : Nat → Nat) (obs : slots)
    (lvl : level) (n n1 : Nat) (o : obstacle)
    (h : generate_obstacle COLS rand obs lvl n = some (some o, n1)) :
    ∃ r, r < 3 ∧ o = template COLS r := by
  unfold generate_obstacle at h
  have hlt : ∀ m : Nat, m % 3 < 3 := fun m => Nat.mod_lt _ (by decide)
  split at h
  · simp at h
  · split at h
    · simp only [Option.some.injEq, Prod.mk.injEq] at h
      exact ⟨_, hlt _, h.1.symm⟩
    · split at h
      · simp at h
      · split at h
        · simp at h
        · split at h
          · split at h
            · simp at h
            · split at h
              · simp at h
              · simp only [Option.some.injEq, Prod.mk.injEq] at h
                exact ⟨_, hlt _, h.1.symm⟩
          · simp only [Option.some.injEq, Prod.mk.injEq] at h
            exact ⟨_, hlt _, h.1.symm⟩

/-- When `generate_obstacle` returns an obstacle on a set whose slot 0 is occupied, the
obstacle in slot `latest_obstacle - 1` is not right of
`COLS - min_obstacle_distance`. -/
theorem generate_obstacle_back (COLS : Int) (rand : Nat → Nat) (obs : slots)
    (lvl : level) (n n1 : Nat) (o back : obstacle)
    (h : generate_obstacle COLS rand obs lvl n = some (some o, n1))
    (h0 : obs 0 ≠ none)
    (hback : slot_at obs (lvl.latest_obstacle - 1) = some back) :
    back.hitbox.x ≤ COLS - lvl.min_obstacle_distance := by
  unfold generate_obstacle at h
  split at h
  · simp at h
  · split at h
    · rename_i hnone
      exact absurd hnone h0
    · rw [hback] at h
      simp only at h
      split at h
      · simp at h
      · omega

/-- C18 as stated fails: in the level built by `main` on a 20-column terminal
(`min_obstacle_distance = 10`), with the back-most obstacle of width 9 at column 8,
`generate_obstacle` returns the obstacle of width 15 at column 4, while the back-most
one ends at column `8 + 9 = 17`. The game loop reaches that call at its second tick. -/
theorem generate_obstacle_overlaps :
    narrow_scene.obstacles 0 ≠ none ∧
    (slot_at narrow_scene.obstacles (narrow_scene.current_level.latest_obstacle - 1)).map
      (fun back => back.hitbox.x + back.hitbox.width) = some 17 ∧
    (generate_obstacle 20 wide_third_draw narrow_scene.obstacles narrow_scene.current_level
      narrow_scene.calls).map (fun p => p.1.map (fun o => o.hitbox.x)) = some (some 4) ∧
    (play 20 wide_third_draw [key.other, key.other] (main_init 20)).map
      (fun s => (s.current_level.latest_obstacle,
        (s.obstacles 0).map (fun o => (o.hitbox.x, o.hitbox.width)),
        (s.obstacles 1).map (fun o => (o.hitbox.x, o.hitbox.width)))) =
      some (2, some (8, 9), some (4, 15)) := by
  decide!

/-- C18, amended: when `generate_obstacle` returns an obstacle `o` on a non-empty set
with back-most obstacle `back`, then `back.hitbox.x <= COLS - min_obstacle_distance`,
the new obstacle is a template (width at most 15, `hitbox.x = COLS - (width + 1)`), and
so the new obstacle does not overlap the back-most one
(`back.hitbox.x + back.hitbox.width <= o.hitbox.x`) whenever
`min_obstacle_distance >= back.hitbox.width + o.hitbox.width + 1`. -/
theorem generate_obstacle_no_overlap (COLS : Int) (rand : Nat → Nat) (obs : slots)
    (lvl : level) (n n1 : Nat) (o back : obstacle)
    (h : generate_obstacle COLS rand obs lvl n = some (some o, n1))
    (h0 : obs 0 ≠ none)
    (hback : slot_at obs (lvl.latest_obstacle - 1) = some back) :
    back.hitbox.x ≤ COLS - lvl.min_obstacle_distance ∧
    o.hitbox.x = COLS - (o.hitbox.width + 1) ∧ o.hitbox.width ≤ 15 ∧
    (back.hitbox.width + o.hitbox.width + 1 ≤ lvl.min_obstacle_distance →
      back.hitbox.x + back.hitbox.width ≤ o.hitbox.x) := by
  have hb := generate_obstacle_back COLS rand obs lvl n n1 o back h h0 hback
  obtain ⟨r, hr, ho⟩ := generate_obstacle_eq_template COLS rand obs lvl n n1 o h
  obtain ⟨h9, h6, h15, -, -, hx, -⟩ := template_spec COLS r hr
  rw [← ho] at h9 h6 h15 hx
  have hw : o.hitbox.width ≤ 15 := by
    have h3 : r = 0 ∨ r = 1 ∨ r = 2 := by omega
    rcases h3 with h | h | h
    · rw [h9 h]; decide
    · rw [h6 h]; decide
    · rw [h15 h]
  exact ⟨hb, hx, hw, fun hmin => by omega⟩

/-- C18, amended, on the level built by `main` on an 80-column terminal
(`min_obstacle_distance = 40`): behind an obstacle of width 9 at column 38 the new
obstacle of width 9 stands at column 70. -/
theorem generate_obstacle_no_overlap_witness :
    (⟨4, 9, 15, 38⟩ : rect).x + (⟨4, 9, 15, 38⟩ : rect).width ≤ (template 80 0).hitbox.x :=
  (generate_obstacle_no_overlap 80 zero_draws
    (fun i => if i = 0 then some { hitbox := ⟨4, 9, 15, 38⟩, ascii := [] } else none)
    { (main_init 80).current_level with latest_obstacle := 1 } 0 2 (template 80 0)
    { hitbox := ⟨4, 9, 15, 38⟩, ascii := [] } (by decide) (by decide) (by decide)).2.2.2
    (by decide)


/-! ## Scrolling -/

/-- With an integer speed `k`, line 244 decreases `hitbox.x` by exactly `k`. -/
theorem scroll_int (k : Int) (o : obstacle) :
    scroll (k : ℚ) o = { o with hitbox := { o.hitbox with x := o.hitbox.x - k } } := by
  have h : ((o.hitbox.x : ℚ) - (k : ℚ)) = ((o.hitbox.x - k : Int) : ℚ) := by push_cast; rfl
  unfold scroll to_int
  rw [h, Int.floor_intCast, Int.ceil_intCast, ite_self]

/-- A loop stopped by a collision moved the slots up to the colliding one, which is
active, and left the later ones as they were. -/
theorem scroll_loop_true_slots (s : game) (box : rect) (obs1 : slots)
    (h : scroll_loop box s.current_level.speed s.current_level.latest_obstacle.toNat 0
      s.obstacles = some (true, obs1)) :
    ∃ c : Nat, (c : Int) < s.current_level.latest_obstacle ∧
      (∀ j, j ≤ c → obs1 j = scrolled s j) ∧ (∀ j, c < j → obs1 j = s.obstacles j) ∧
      (∃ o, s.obstacles c = some o ∧
        detect_object_collisions box (scroll s.current_level.speed o).hitbox = true) ∧
      (∀ j, j < c → ∃ o, s.obstacles j = some o ∧
        detect_object_collisions box (scroll s.current_level.speed o).hitbox = false) := by
  obtain ⟨m, hmk, -, ht, hob, hdet⟩ := scroll_loop_spec _ _ _ _ _ _ _ h
  have hm := ht rfl
  refine ⟨m - 1, by omega, fun j hj => ?_, fun j hj => ?_, ?_, fun j hj => ?_⟩
  · rw [hob j, if_pos (by omega)]
    unfold scrolled
    rw [if_pos (by omega)]
  · rw [hob j, if_neg (by omega)]
  · obtain ⟨o, ho, hd⟩ := hdet (m - 1) (by omega) (by omega)
    exact ⟨o, ho, hd.mpr ⟨rfl, by omega⟩⟩
  · obtain ⟨o, ho, hd⟩ := hdet j (by omega) (by omega)
    refine ⟨o, ho, ?_⟩
    cases hc : detect_object_collisions box (scroll s.current_level.speed o).hitbox with
    | false => rfl
    | true =>
      have := (hd.mp hc).2
      omega

/-- The slots after a tick that ends in a collision. -/
theorem before_generate_true_slots (s s1 : game) (h : before_generate s = some (true, s1)) :
    ∃ c : Nat, (c : Int) < s.current_level.latest_obstacle ∧
      (∀ j, j ≤ c → s1.obstacles j = scrolled s j) ∧
      (∀ j, c < j → s1.obstacles j = s.obstacles j) ∧
      (∃ o, s.obstacles c = some o ∧
        detect_object_collisions (physics s.current_level.gravity (animate s.dino)).hitbox
          (scroll s.current_level.speed o).hitbox = true) ∧
      (∀ j, j < c → ∃ o, s.obstacles j = some o ∧
        detect_object_collisions (physics s.current_level.gravity (animate s.dino)).hitbox
          (scroll s.current_level.speed o).hitbox = false) := by
  unfold before_generate at h
  simp only at h
  split at h
  · exact absurd h (by simp)
  · rename_i obs hl
    simp only [Option.some.injEq, Prod.mk.injEq, true_and] at h
    subst h
    exact scroll_loop_true_slots s _ _ hl
  · split at h
    · exact absurd h (by simp)
    · simp only [Option.some.injEq, Prod.mk.injEq] at h
      exact absurd h.1 (by simp)

/-- C16 as stated fails: in `pileup_scene` (speed 2) the obstacle of slot 0 is moved from
column 42 to column 40, where it collides with the dinosaur, and `update` returns with
the obstacle of slot 1 still at column 73. The game loop reaches such a tick from the
state built by `main`: after four idle ticks, a jump and thirteen idle ticks the
obstacles are at columns 36 and 66, and the next tick ends the game with the obstacles
at columns 34 and 66. -/
theorem update_collision_skips_scroll :
    pileup_scene.current_level.speed = 2 ∧
    pileup_scene.current_level.latest_obstacle = 2 ∧
    ((pileup_scene.obstacles 0).map (fun o => o.hitbox.x),
      (pileup_scene.obstacles 1).map (fun o => o.hitbox.x)) = (some 42, some 73) ∧
    (update 80 zero_draws pileup_scene).map
      (fun s => (s.current_level.game_state, (s.obstacles 0).map (fun o => o.hitbox.x),
        (s.obstacles 1).map (fun o => o.hitbox.x))) = some (false, some 40, some 73) ∧
    (play 80 zero_draws
        (List.replicate 4 key.other ++ key.w :: List.replicate 13 key.other)
        (main_init 80)).map
      (fun s => (s.current_level.game_state, s.current_level.latest_obstacle,
        (s.obstacles 0).map (fun o => o.hitbox.x),
        (s.obstacles 1).map (fun o => o.hitbox.x))) = some (true, 2, some 36, some 66) ∧
    (play 80 zero_draws
        (List.replicate 4 key.other ++ key.w :: List.replicate 14 key.other)
        (main_init 80)).map
      (fun s => (s.current_level.game_state, s.current_level.latest_obstacle,
        (s.obstacles 0).map (fun o => o.hitbox.x),
        (s.obstacles 1).map (fun o => o.hitbox.x))) = some (false, 2, some 34, some 66) := by
  decide!

/-- C16, amended: for an integer speed `k`, scrolling an active obstacle decreases its
`hitbox.x` by exactly `k`. On a tick without collision every active obstacle is scrolled
before the removal and generation steps, which work on the scrolled slots. On a tick
that ends in a collision there is a first colliding obstacle, at an active index `c`: the
obstacles before it are scrolled and do not collide at their scrolled position, the
obstacle at `c` is scrolled and collides at its scrolled position, and the obstacles
after it are left where they were. -/
theorem update_scrolls (COLS : Int) (rand : Nat → Nat) (s s2 : game) (k : Int)
    (hk : s.current_level.speed = (k : ℚ)) (h : update COLS rand s = some s2) :
    (∀ j : Nat, (j : Int) < s.current_level.latest_obstacle → ∀ o, s.obstacles j = some o →
      scrolled s j = some { o with hitbox := { o.hitbox with x := o.hitbox.x - k } }) ∧
    ∃ r s1, before_generate s = some (r, s1) ∧
      (r = false →
        remove_front (scrolled s) s.current_level = some (s1.obstacles, s1.current_level)) ∧
      (r = true → s2.current_level.game_state = false ∧
        ∃ c : Nat, (c : Int) < s.current_level.latest_obstacle ∧
          (∀ j, j ≤ c → s2.obstacles j = scrolled s j) ∧
          (∀ j, c < j → s2.obstacles j = s.obstacles j) ∧
          (∃ o, s.obstacles c = some o ∧
            detect_object_collisions s2.dino.hitbox
              { o.hitbox with x := o.hitbox.x - k } = true) ∧
          (∀ j, j < c → ∃ o, s.obstacles j = some o ∧
            detect_object_collisions s2.dino.hitbox
              { o.hitbox with x := o.hitbox.x - k } = false)) := by
  constructor
  · intro j hj o ho
    unfold scrolled
    rw [if_pos hj, ho, hk, Option.map_some', scroll_int]
  · obtain ⟨r, s1, hb, hd, hcol, -, -⟩ := update_spec COLS rand s s2 h
    obtain ⟨hd1, -, -, ht, hf⟩ := before_generate_spec s r s1 hb
    refine ⟨r, s1, hb, hf, fun hr => ?_⟩
    subst hr
    have h21 := hcol rfl
    subst h21
    obtain ⟨c, hc, hle, hgt, ⟨o, ho, hdet⟩, hbefore⟩ := before_generate_true_slots s s2 hb
    refine ⟨by rw [(ht rfl).1], c, hc, hle, hgt, ⟨o, ho, ?_⟩, fun j hj => ?_⟩
    · rw [hk, scroll_int] at hdet
      rw [hd1]
      exact hdet
    · obtain ⟨o2, ho2, hdet2⟩ := hbefore j hj
      rw [hk, scroll_int] at hdet2
      rw [hd1]
      exact ⟨o2, ho2, hdet2⟩

/-- C16, amended, on `pileup_scene`: the colliding obstacle is moved by 2 and the one
behind it is not. -/
theorem update_scrolls_witness :
    ∃ s2, update 80 zero_draws pileup_scene = some s2 ∧
      (∀ j : Nat, (j : Int) < pileup_scene.current_level.latest_obstacle →
        ∀ o, pileup_scene.obstacles j = some o →
          scrolled pileup_scene j =
            some { o with hitbox := { o.hitbox with x := o.hitbox.x - 2 } }) ∧
      ∃ r s1, before_generate pileup_scene = some (r, s1) ∧
        (r = true → s2.current_level.game_state = false ∧
          ∃ c : Nat, (c : Int) < pileup_scene.current_level.latest_obstacle ∧
            (∀ j, j ≤ c → s2.obstacles j = scrolled pileup_scene j) ∧
            (∀ j, c < j → s2.obstacles j = pileup_scene.obstacles j) ∧
            (∃ o, pileup_scene.obstacles c = some o ∧
              detect_object_collisions s2.dino.hitbox
                { o.hitbox with x := o.hitbox.x - 2 } = true) ∧
            (∀ j, j < c → ∃ o, pileup_scene.obstacles j = some o ∧
              detect_object_collisions s2.dino.hitbox
                { o.hitbox with x := o.hitbox.x - 2 } = false)) := by
  have hs : (update 80 zero_draws pileup_scene).isSome = true := by decide!
  obtain ⟨s2, hs2⟩ := Option.isSome_iff_exists.mp hs
  obtain ⟨h1, r, s1, hb, -, ht⟩ :=
    update_scrolls 80 zero_draws pileup_scene s2 2 (by decide!) hs2
  exact ⟨s2, hs2, h1, r, s1, hb, ht⟩

/-! ## The animation frame -/

/-- The physics step does not read `current_frame`. -/
theorem physics_animate_frame (gravity : ℚ) (d : dinosaur) (f : Int) :
    physics gravity (animate { d with current_frame := f }) =
      { physics gravity (animate d) with
        current_frame := (animate { d with current_frame := f }).current_frame } := by
  unfold animate
  split <;> split <;> rfl

/-- The part of `update` before the generation step does not read `current_frame`. -/
theorem before_generate_set_frame (f : Int) (s : game) :
    before_generate (set_frame f s) =
      (before_generate s).map (fun p =>
        (p.1, set_frame (animate { s.dino with current_frame := f }).current_frame p.2)) := by
  unfold before_generate set_frame
  simp only [physics_animate_frame]
  cases scroll_loop (physics s.current_level.gravity (animate s.dino)).hitbox
      s.current_level.speed s.current_level.latest_obstacle.toNat 0 s.obstacles with
  | none => rfl
  | some p =>
    obtain ⟨r, obs⟩ := p
    cases r with
    | true => rfl
    | false =>
      simp only
      cases remove_front obs s.current_level with
      | none => rfl
      | some q => rfl

/-- All of `update` does not read `current_frame`. -/
theorem update_set_frame (COLS : Int) (rand : Nat → Nat) (f : Int) (s : game) :
    update COLS rand (set_frame f s) =
      (update COLS rand s).map
        (set_frame (animate { s.dino with current_frame := f }).current_frame) := by
  unfold update
  rw [before_generate_set_frame]
  cases before_generate s with
  | none => rfl
  | some p =>
    obtain ⟨r, s1⟩ := p
    cases r with
    | true => rfl
    | false =>
      simp only [Option.map_some', set_frame]
      cases generate_obstacle COLS rand s1.obstacles s1.current_level s1.calls with
      | none => rfl
      | some q =>
        obtain ⟨res, n⟩ := q
        cases res with
        | none => rfl
        | some cactus =>
          simp only
          split <;> rfl

/-- The frame after `update` is the one chosen by the animation step, and the height of
the dinosaur's hitbox is not changed. -/
theorem update_frame (COLS : Int) (rand : Nat → Nat) (s s2 : game)
    (h : update COLS rand s = some s2) :
    s2.dino.current_frame = (animate s.dino).current_frame ∧
      s2.dino.hitbox.height = s.dino.hitbox.height := by
  rw [(update_dino_game_state COLS rand s s2 h).1]
  refine ⟨rfl, ?_⟩
  show (animate s.dino).hitbox.height = s.dino.hitbox.height
  rw [(animate_fields s.dino).1]

/-- The animation step switches between `frame_1` and `frame_2` when the height of the
hitbox is between 1 and 4, the number of rows of `frame_1`. -/
theorem animate_toggle (d : dinosaur) (h0 : 0 < d.hitbox.height) (h4 : d.hitbox.height ≤ 4) :
    (d.current_frame = frame_1 → (animate d).current_frame = frame_2) ∧
      (d.current_frame = frame_2 → (animate d).current_frame = frame_1) := by
  unfold animate frame_1 frame_2
  constructor
  · intro h
    rw [if_pos (by omega)]
  · intro h
    rw [if_neg (by omega)]

/-! ## The jump arc -/

/-- The only fields of the level that `update` writes are `latest_obstacle` and
`game_state`. -/
theorem update_level (COLS : Int) (rand : Nat → Nat) (s s2 : game)
    (h : update COLS rand s = some s2) :
    ∃ n b, s2.current_level = { s.current_level with latest_obstacle := n, game_state := b } := by
  obtain ⟨r, s1, hb, -, hcol, -, hlvl⟩ := update_spec COLS rand s s2 h
  obtain ⟨-, -, -, ht, hf⟩ := before_generate_spec s r s1 hb
  have h1 : ∃ n b, s1.current_level =
      { s.current_level with latest_obstacle := n, game_state := b } := by
    cases r with
    | true => exact ⟨_, _, (ht rfl).1⟩
    | false =>
      rcases remove_front_level _ _ _ _ (hf rfl) with h1 | h1
      · exact ⟨s.current_level.latest_obstacle, s.current_level.game_state, h1⟩
      · exact ⟨_, s.current_level.game_state, h1⟩
  obtain ⟨n, b, h1⟩ := h1
  rcases hlvl with h2 | h2
  · exact ⟨n, b, h2.trans h1⟩
  · refine ⟨n + 1, b, ?_⟩
    rw [h2, h1]

/-- The dinosaur after one iteration of the game loop: the physics step applied to the
dinosaur, after `jump` when the key is `w`; gravity is not changed. -/
theorem tick_dino (COLS : Int) (rand : Nat → Nat) (k : key) (s s1 : game)
    (h : tick COLS rand k s = some s1) :
    s1.dino = physics s.current_level.gravity
        (animate (if k = key.w then jump s.dino else s.dino)) ∧
      s1.current_level.gravity = s.current_level.gravity := by
  unfold tick at h
  split at h
  · obtain ⟨n, b, hl⟩ := update_level COLS rand _ s1 h
    exact ⟨(update_dino_game_state COLS rand _ s1 h).1, by rw [hl]⟩
  · obtain ⟨n, b, hl⟩ := update_level COLS rand _ s1 h
    exact ⟨(update_dino_game_state COLS rand _ s1 h).1, by rw [hl]⟩
  · obtain ⟨n, b, hl⟩ := update_level COLS rand _ s1 h
    exact ⟨(update_dino_game_state COLS rand _ s1 h).1, by rw [hl]⟩

/-- One iteration of the game loop leaves the dinosaur on or above its ground row and
keeps the ground row. -/
theorem tick_le_ground (COLS : Int) (rand : Nat → Nat) (k : key) (s s1 : game)
    (h : tick COLS rand k s = some s1) :
    s1.dino.hitbox.y ≤ s1.dino.ground ∧ s1.dino.ground = s.dino.ground := by
  rw [(tick_dino COLS rand k s s1 h).1]
  obtain ⟨h1, h2⟩ := physics_le_ground s.current_level.gravity
    (animate (if k = key.w then jump s.dino else s.dino))
  refine ⟨h1, h2.trans ((animate_fields _).2.2.2.trans ?_)⟩
  split <;> rfl

/-- Repeated iterations of the game loop, at least one, leave the dinosaur on or above
its ground row and keep the ground row. -/
theorem ticks_le_ground (COLS : Int) (rand : Nat → Nat) :
    ∀ (keys : List key) (k : key) (s s2 : game), ticks COLS rand (k :: keys) s = some s2 →
      s2.dino.hitbox.y ≤ s2.dino.ground ∧ s2.dino.ground = s.dino.ground := by
  intro keys
  induction keys with
  | nil =>
    intro k s s2 h
    unfold ticks at h
    split at h
    · exact absurd h (by simp)
    · rename_i s1 ht
      simp only [ticks, Option.some.injEq] at h
      subst h
      exact tick_le_ground COLS rand k s s1 ht
  | cons k2 ks ih =>
    intro k s s2 h
    unfold ticks at h
    split at h
    · exact absurd h (by simp)
    · rename_i s1 ht
      obtain ⟨h1, h2⟩ := ih k2 s1 s2 h
      exact ⟨h1, h2.trans (tick_le_ground COLS rand k s s1 ht).2⟩

/-- The row, velocity and ground row after the physics step depend only on the row,
velocity and ground row before it. -/
theorem physics_vertical_congr (gravity : ℚ) (d e : dinosaur)
    (h : d.hitbox.y = e.hitbox.y ∧ d.dy = e.dy ∧ d.ground = e.ground) :
    (physics gravity (animate d)).hitbox.y = (physics gravity (animate e)).hitbox.y ∧
      (physics gravity (animate d)).dy = (physics gravity (animate e)).dy ∧
      (physics gravity (animate d)).ground = (physics gravity (animate e)).ground := by
  obtain ⟨hy, hdy, hg⟩ := h
  have hrow : (physics gravity (animate d)).hitbox.y =
      (physics gravity (animate e)).hitbox.y := by
    rw [physics_row, physics_row, hy, hdy, hg]
  refine ⟨hrow, ?_, ?_⟩
  · rw [physics_velocity, physics_velocity, hrow, hdy, hg]
  · rw [(physics_le_ground _ _).2, (physics_le_ground _ _).2, (animate_fields d).2.2.2,
      (animate_fields e).2.2.2, hg]

/-- The same for any number of physics steps. -/
theorem physics_iterate_congr (gravity : ℚ) :
    ∀ (n : Nat) (d e : dinosaur),
      (d.hitbox.y = e.hitbox.y ∧ d.dy = e.dy ∧ d.ground = e.ground) →
      (((fun x => physics gravity (animate x))^[n] d).hitbox.y =
          ((fun x => physics gravity (animate x))^[n] e).hitbox.y ∧
        ((fun x => physics gravity (animate x))^[n] d).dy =
          ((fun x => physics gravity (animate x))^[n] e).dy ∧
        ((fun x => physics gravity (animate x))^[n] d).ground =
          ((fun x => physics gravity (animate x))^[n] e).ground) := by
  intro n
  induction n with
  | zero => intro d e h; exact h
  | succ n ih =>
    intro d e h
    rw [Function.iterate_succ_apply, Function.iterate_succ_apply]
    exact ih _ _ (physics_vertical_congr gravity d e h)

/-- The dinosaur after `n` iterations of the game loop without a jump is the dinosaur
after `n` physics steps. -/
theorem ticks_other_dino (COLS : Int) (rand : Nat → Nat) :
    ∀ (n : Nat) (s s2 : game), ticks COLS rand (List.replicate n key.other) s = some s2 →
      s2.dino = (fun x => physics s.current_level.gravity (animate x))^[n] s.dino := by
  intro n
  induction n with
  | zero =>
    intro s s2 h
    simp only [List.replicate, ticks, Option.some.injEq] at h
    subst h
    rfl
  | succ n ih =>
    intro s s2 h
    rw [List.replicate_succ] at h
    unfold ticks at h
    split at h
    · exact absurd h (by simp)
    · rename_i s1 ht
      obtain ⟨hd, hg⟩ := tick_dino COLS rand key.other s s1 ht
      rw [ih s1 s2 h, Function.iterate_succ_apply, hg, hd]
      simp

/-- C15: with `max_dy = 3` and gravity exactly -2/5, a dinosaur grounded at
`hitbox.y = ground = 20` (with `dy = 0` or any other velocity, which `jump` overwrites)
is, after `jump` and one `update`, at row 17 with velocity 13/5; after 15 more updates without a jump (16 in all) it is at row 20 again
with velocity 0; and after the jump and any number of further updates its row is at
most 20. -/
theorem jump_arc (COLS : Int) (rand : Nat → Nat) (s : game)
    (hy : s.dino.hitbox.y = 20) (hg : s.dino.ground = 20)
    (hmax : s.dino.max_dy = 3) (hgr : s.current_level.gravity = -(2 / 5)) :
    (∀ s1, tick COLS rand key.w s = some s1 →
      s1.dino.hitbox.y = 17 ∧ s1.dino.dy = 13 / 5) ∧
    (∀ s16, ticks COLS rand (key.w :: List.replicate 15 key.other) s = some s16 →
      s16.dino.hitbox.y = 20 ∧ s16.dino.dy = 0) ∧
    (∀ n sn, ticks COLS rand (key.w :: List.replicate n key.other) s = some sn →
      sn.dino.hitbox.y ≤ 20) := by
  have hsame : (jump s.dino).hitbox.y = (jump arc_scene.dino).hitbox.y ∧
      (jump s.dino).dy = (jump arc_scene.dino).dy ∧
      (jump s.dino).ground = (jump arc_scene.dino).ground :=
    ⟨hy, hmax, hg⟩
  have hfirst := physics_vertical_congr (-(2 / 5)) _ _ hsame
  have hone : ∀ s1, tick COLS rand key.w s = some s1 →
      s1.dino = physics (-(2 / 5)) (animate (jump s.dino)) ∧
        s1.current_level.gravity = -(2 / 5) := by
    intro s1 h1
    obtain ⟨hd, hgv⟩ := tick_dino COLS rand key.w s s1 h1
    rw [hgr] at hd hgv
    exact ⟨by simpa using hd, hgv⟩
  refine ⟨fun s1 h1 => ?_, fun s16 h16 => ?_, fun n sn hn => ?_⟩
  · rw [(hone s1 h1).1, hfirst.1, hfirst.2.1]
    decide!
  · unfold ticks at h16
    split at h16
    · exact absurd h16 (by simp)
    · rename_i s1 h1
      obtain ⟨hd1, hg1⟩ := hone s1 h1
      have hit := ticks_other_dino COLS rand 15 s1 s16 h16
      rw [hg1, hd1] at hit
      obtain ⟨e1, e2, -⟩ := physics_iterate_congr (-(2 / 5)) 15 _ _ hfirst
      rw [hit, e1, e2]
      decide!
  · obtain ⟨h1, h2⟩ := ticks_le_ground COLS rand _ _ s sn hn
    rw [h2, hg] at h1
    exact h1

/-- C15 on the state built by `main` on a 200-column terminal with the ground at row 20:
the 16 updates return, the game is still running, and the dinosaur is back on row 20
with velocity 0. -/
theorem jump_arc_witness :
    ∃ s1 s16, tick 200 zero_draws key.w arc_scene = some s1 ∧
      ticks 200 zero_draws (key.w :: List.replicate 15 key.other) arc_scene = some s16 ∧
      s1.dino.hitbox.y = 17 ∧ s1.dino.dy = 13 / 5 ∧
      s16.dino.hitbox.y = 20 ∧ s16.dino.dy = 0 ∧ s16.current_level.game_state = true := by
  have h1 : (tick 200 zero_draws key.w arc_scene).isSome = true := by decide!
  obtain ⟨s1, hs1⟩ := Option.isSome_iff_exists.mp h1
  have h16 : (ticks 200 zero_draws (key.w :: List.replicate 15 key.other) arc_scene).map
      (fun s => s.current_level.game_state) = some true := by decide!
  obtain ⟨s16, hs16, hrun⟩ := Option.map_eq_some'.mp h16
  have t := jump_arc 200 zero_draws arc_scene (by decide) (by decide) (by decide!)
    (by decide!)
  exact ⟨s1, s16, hs1, hs16, (t.1 s1 hs1).1, (t.1 s1 hs1).2, (t.2.1 s16 hs16).1,
    (t.2.1 s16 hs16).2, hrun⟩


/-! ## Invariants of the obstacle set -/

/-- The last step of `update` on a tick without collision: the call of
`generate_obstacle` returns, and either it returns `NULL` and slots and level are those
of the state before it, or it returns an obstacle, which is stored in slot
`latest_obstacle` before the count is increased. -/
theorem update_after_generate (COLS : Int) (rand : Nat → Nat) (s s1 s2 : game)
    (hb : before_generate s = some (false, s1)) (h : update COLS rand s = some s2) :
    ∃ res n, generate_obstacle COLS rand s1.obstacles s1.current_level s1.calls =
        some (res, n) ∧
      ((res = none ∧ s2.obstacles = s1.obstacles ∧ s2.current_level = s1.current_level) ∨
       (∃ cactus, res = some cactus ∧ 0 ≤ s1.current_level.latest_obstacle ∧
         s2.obstacles = Function.update s1.obstacles
           s1.current_level.latest_obstacle.toNat (some cactus) ∧
         s2.current_level = { s1.current_level with
           latest_obstacle := s1.current_level.latest_obstacle + 1 })) := by
  unfold update at h
  rw [hb] at h
  simp only at h
  split at h
  · exact absurd h (by simp)
  · rename_i n hg
    simp only [Option.some.injEq] at h
    subst h
    exact ⟨none, n, hg, Or.inl ⟨rfl, rfl, rfl⟩⟩
  · rename_i cactus n hg
    split at h
    · exact absurd h (by simp)
    · rename_i hlat
      simp only [Option.some.injEq] at h
      subst h
      exact ⟨some cactus, n, hg, Or.inr ⟨cactus, rfl, by omega, rfl, rfl⟩⟩

/-- What a returning call of `generate_obstacle` tells about the state: above the
capacity it returns `NULL`, and otherwise, slot 0 being occupied, slot
`latest_obstacle - 1` holds an obstacle, which is not right of
`COLS - min_obstacle_distance` when an obstacle is returned. -/
theorem generate_obstacle_guard (COLS : Int) (rand : Nat → Nat) (obs : slots)
    (lvl : level) (n n1 : Nat) (res : Option obstacle)
    (h : generate_obstacle COLS rand obs lvl n = some (res, n1)) :
    (lvl.latest_obstacle > lvl.max_obstacles → res = none) ∧
    (lvl.latest_obstacle ≤ lvl.max_obstacles → obs 0 ≠ none →
      ∃ back, slot_at obs (lvl.latest_obstacle - 1) = some back ∧
        (res ≠ none → back.hitbox.x ≤ COLS - lvl.min_obstacle_distance)) := by
  unfold generate_obstacle at h
  constructor
  · intro hcap
    rw [if_pos hcap] at h
    simp only [Option.some.injEq, Prod.mk.injEq] at h
    exact h.1.symm
  · intro hcap h0
    rw [if_neg (by omega)] at h
    split at h
    · rename_i hnone
      exact absurd hnone h0
    · split at h
      · exact absurd h (by simp)
      · rename_i back hback
        refine ⟨back, hback, fun hres => ?_⟩
        split at h
        · simp only [Option.some.injEq, Prod.mk.injEq] at h
          exact absurd h.1.symm hres
        · omega

/-- The state before the generation step, for a state that satisfies `counted`: the
count is still between 0 and `max_obstacles + 1` and the slots below it hold
obstacles. -/
theorem before_generate_counted (s s1 : game) (r : Bool) (hc : counted s)
    (hb : before_generate s = some (r, s1)) :
    0 ≤ s1.current_level.latest_obstacle ∧
    s1.current_level.latest_obstacle ≤ s1.current_level.max_obstacles + 1 ∧
    s1.current_level.max_obstacles = s.current_level.max_obstacles ∧
    (∀ j : Nat, (j : Int) < s1.current_level.latest_obstacle → s1.obstacles j ≠ none) ∧
    (r = true → counted s1) := by
  obtain ⟨h0, hcap, hact, hzero⟩ := hc
  obtain ⟨-, -, -, ht, hf⟩ := before_generate_spec s r s1 hb
  cases r with
  | true =>
    obtain ⟨hl, hs⟩ := ht rfl
    have hnull : ∀ j, s1.obstacles j = none ↔ s.obstacles j = none := by
      intro j
      rcases hs j with h | h
      · rw [h]
      · rw [h]; exact scrolled_eq_none_iff s j
    have hact1 : ∀ j : Nat, (j : Int) < s1.current_level.latest_obstacle →
        s1.obstacles j ≠ none := by
      intro j hj hn
      rw [hl] at hj
      exact hact j hj ((hnull j).mp hn)
    refine ⟨by rw [hl]; exact h0, by rw [hl]; exact hcap, by rw [hl], hact1, fun _ => ?_⟩
    refine ⟨by rw [hl]; exact h0, by rw [hl]; exact hcap, hact1, fun hz => ?_⟩
    rw [hl] at hz
    exact (hnull 0).mpr (hzero hz)
  | false =>
    refine ⟨?_, ?_, ?_, ?_, fun h => absurd h (by simp)⟩ <;>
    rcases remove_front_spec _ _ _ _ (hf rfl) with ⟨ho, hl, -⟩ | ⟨o, ho, -, hmax, hl, hsh⟩
    · rw [hl]; exact h0
    · rw [hl]
      have h1 : 1 ≤ s.current_level.latest_obstacle := by
        by_contra hcon
        have := (scrolled_eq_none_iff s 0).mpr (hzero (by omega))
        rw [ho] at this
        exact absurd this (by simp)
      simp only
      omega
    · rw [hl]; exact hcap
    · rw [hl]; simp only; omega
    · rw [hl]
    · rw [hl]
    · intro j hj hn
      rw [hl] at hj
      rw [ho] at hn
      exact hact j hj ((scrolled_eq_none_iff s j).mp hn)
    · intro j hj hn
      rw [hl] at hj
      simp only at hj
      rw [hsh j, if_pos (by omega)] at hn
      exact hact (j + 1) (by omega) ((scrolled_eq_none_iff s (j + 1)).mp hn)

/-- The invariant `counted` is kept by `update`, for `max_obstacles >= 0`. -/
theorem update_counted (COLS : Int) (rand : Nat → Nat) (s s2 : game)
    (hmax : 0 ≤ s.current_level.max_obstacles) (hc : counted s)
    (h : update COLS rand s = some s2) :
    counted s2 ∧ s2.current_level.max_obstacles = s.current_level.max_obstacles := by
  obtain ⟨r, s1, hb, -, hcol, -, -⟩ := update_spec COLS rand s s2 h
  obtain ⟨h0, hcap, hm, hact, ht⟩ := before_generate_counted s s1 r hc hb
  cases r with
  | true =>
    rw [hcol rfl]
    exact ⟨ht rfl, hm⟩
  | false =>
    obtain ⟨res, n, hg, hcase⟩ := update_after_generate COLS rand s s1 s2 hb h
    obtain ⟨hg1, hg2⟩ := generate_obstacle_guard _ _ _ _ _ _ _ hg
    rcases hcase with ⟨hres, hobs, hlvl⟩ | ⟨cactus, hres, -, hobs, hlvl⟩
    · refine ⟨⟨?_, ?_, ?_, ?_⟩, by rw [hlvl]; exact hm⟩
      · rw [hlvl]; exact h0
      · rw [hlvl]; exact hcap
      · rw [hlvl, hobs]; exact hact
      · rw [hlvl, hobs]
        intro hz
        by_contra hne
        obtain ⟨back, hback, -⟩ := hg2 (by omega) hne
        unfold slot_at at hback
        rw [if_pos (by omega)] at hback
        exact absurd hback (by simp)
    · have hle : s1.current_level.latest_obstacle ≤ s1.current_level.max_obstacles := by
        by_contra hcon
        have := hg1 (by omega)
        rw [hres] at this
        exact absurd this (by simp)
      refine ⟨⟨?_, ?_, ?_, ?_⟩, by rw [hlvl]; exact hm⟩
      · rw [hlvl]; simp only; omega
      · rw [hlvl]; simp only; omega
      · rw [hlvl, hobs]
        intro j hj
        simp only at hj
        by_cases hjl : j = s1.current_level.latest_obstacle.toNat
        · rw [hjl, Function.update_same]
          simp
        · rw [Function.update_noteq hjl]
          exact hact j (by omega)
      · rw [hlvl]
        intro hz
        simp only at hz
        omega

/-- The invariant `counted` is kept by repeated iterations of the game loop. -/
theorem ticks_counted (COLS : Int) (rand : Nat → Nat) :
    ∀ (keys : List key) (s s2 : game), 0 ≤ s.current_level.max_obstacles → counted s →
      ticks COLS rand keys s = some s2 →
      counted s2 ∧ s2.current_level.max_obstacles = s.current_level.max_obstacles := by
  intro keys
  induction keys with
  | nil =>
    intro s s2 _ hc h
    simp only [ticks, Option.some.injEq] at h
    subst h
    exact ⟨hc, rfl⟩
  | cons k ks ih =>
    intro s s2 hmax hc h
    unfold ticks at h
    split at h
    · exact absurd h (by simp)
    · rename_i s1 ht
      have h1 : counted s1 ∧
          s1.current_level.max_obstacles = s.current_level.max_obstacles := by
        unfold tick at ht
        split at ht
        · have key := fun a b => update_counted COLS rand _ s1 a b ht
          exact key hmax hc
        · have key := fun a b => update_counted COLS rand _ s1 a b ht
          exact key hmax hc
        · exact update_counted COLS rand s s1 hmax hc ht
      obtain ⟨h2, h3⟩ := ih s1 s2 (by rw [h1.2]; exact hmax) h1.1 h
      exact ⟨h2, h3.trans h1.2⟩

/-- A state reached by the game loop is reached by repeated calls of its body. -/
theorem play_ticks (COLS : Int) (rand : Nat → Nat) :
    ∀ (keys : List key) (s s2 : game), play COLS rand keys s = some s2 →
      ∃ ks, ticks COLS rand ks s = some s2 := by
  intro keys
  induction keys with
  | nil =>
    intro s s2 h
    simp only [play, Option.some.injEq] at h
    exact ⟨[], by rw [ticks, h]⟩
  | cons k ks ih =>
    intro s s2 h
    unfold play at h
    split at h
    · split at h
      · exact absurd h (by simp)
      · rename_i s1 ht
        obtain ⟨ks2, h2⟩ := ih s1 s2 h
        refine ⟨k :: ks2, ?_⟩
        rw [ticks, ht]
        exact h2
    · simp only [Option.some.injEq] at h
      exact ⟨[], by rw [ticks, h]⟩

/-- The initial state satisfies `counted` when `max_obstacles >= 0`. -/
theorem initial_counted (s : game) (hmax : 0 ≤ s.current_level.max_obstacles)
    (h0 : initial_state s) : counted s :=
  ⟨by rw [h0.1], by rw [h0.1]; omega, fun j _ => by rw [h0.1] at *; omega, fun _ => h0.2 0⟩

/-- C19: for a level with `max_obstacles >= 0`, whatever the keys and the draws, every
state reached from an initial state (count 0, all slots `NULL`) by repeated calls of
`update`, in the game loop or outside it, satisfies
`0 <= latest_obstacle <= max_obstacles + 1`. -/
theorem latest_obstacle_bounds (COLS : Int) (rand : Nat → Nat) (s0 : game)
    (hmax : 0 ≤ s0.current_level.max_obstacles) (h0 : initial_state s0) :
    (∀ keys s, ticks COLS rand keys s0 = some s →
      0 ≤ s.current_level.latest_obstacle ∧
      s.current_level.latest_obstacle ≤ s.current_level.max_obstacles + 1) ∧
    (∀ keys s, play COLS rand keys s0 = some s →
      0 ≤ s.current_level.latest_obstacle ∧
      s.current_level.latest_obstacle ≤ s.current_level.max_obstacles + 1) := by
  have hticks : ∀ keys s, ticks COLS rand keys s0 = some s →
      0 ≤ s.current_level.latest_obstacle ∧
      s.current_level.latest_obstacle ≤ s.current_level.max_obstacles + 1 := by
    intro keys s h
    obtain ⟨hc, -⟩ := ticks_counted COLS rand keys s0 s hmax (initial_counted s0 hmax h0) h
    exact ⟨hc.1, hc.2.1⟩
  refine ⟨hticks, fun keys s h => ?_⟩
  obtain ⟨ks, hks⟩ := play_ticks COLS rand keys s0 s h
  exact hticks ks s hks


/-- C19 on the run of 31 ticks from the state built by `main`: the count is within the
bounds, and it reaches the upper one, `max_obstacles + 1 = 3`. -/
theorem latest_obstacle_bounds_witness :
    ∃ s, play 80 zero_draws (List.replicate 31 key.w) (main_init 80) = some s ∧
      0 ≤ s.current_level.latest_obstacle ∧
      s.current_level.latest_obstacle ≤ s.current_level.max_obstacles + 1 ∧
      s.current_level.latest_obstacle = 3 := by
  have hv : (play 80 zero_draws (List.replicate 31 key.w) (main_init 80)).map
      (fun s => s.current_level.latest_obstacle) = some 3 := by decide!
  obtain ⟨s, hs, hl⟩ := Option.map_eq_some'.mp hv
  have t := (latest_obstacle_bounds 80 zero_draws (main_init 80) (by decide)
    ⟨rfl, fun _ => rfl⟩).2 _ s hs
  exact ⟨s, hs, t.1, t.2, hl⟩

/-- Within the capacity, the part of `update` before the generation step keeps the
obstacles in the first slots and the other slots `NULL`: there the `memmove` of line 264
is a shift that leaves the vacated last slot `NULL`. -/
theorem before_generate_filled (s s1 : game) (r : Bool) (hp : filled_front s)
    (hcap : s.current_level.latest_obstacle ≤ s.current_level.max_obstacles)
    (hb : before_generate s = some (r, s1)) :
    filled_front s1 ∧
      s1.current_level.latest_obstacle ≤ s1.current_level.max_obstacles ∧
      s1.current_level.max_obstacles = s.current_level.max_obstacles := by
  obtain ⟨h0, hact, hfree⟩ := hp
  obtain ⟨-, -, -, ht, hf⟩ := before_generate_spec s r s1 hb
  cases r with
  | true =>
    obtain ⟨hl, hs⟩ := ht rfl
    have hnull : ∀ j, s1.obstacles j = none ↔ s.obstacles j = none := by
      intro j
      rcases hs j with h | h
      · rw [h]
      · rw [h]; exact scrolled_eq_none_iff s j
    refine ⟨⟨by rw [hl]; exact h0, fun j hj hn => ?_, fun j hj => ?_⟩, by rw [hl]; exact hcap,
      by rw [hl]⟩
    · rw [hl] at hj
      exact hact j hj ((hnull j).mp hn)
    · rw [hl] at hj
      exact (hnull j).mpr (hfree j hj)
  | false =>
    rcases remove_front_spec _ _ _ _ (hf rfl) with ⟨ho, hl, -⟩ | ⟨o, ho, -, hmax, hl, hsh⟩
    · refine ⟨⟨by rw [hl]; exact h0, fun j hj hn => ?_, fun j hj => ?_⟩, by rw [hl]; exact hcap,
        by rw [hl]⟩
      · rw [hl] at hj
        rw [ho] at hn
        exact hact j hj ((scrolled_eq_none_iff s j).mp hn)
      · rw [hl] at hj
        rw [ho]
        exact (scrolled_eq_none_iff s j).mpr (hfree j hj)
    · have h1 : 1 ≤ s.current_level.latest_obstacle := by
        by_contra hcon
        have := (scrolled_eq_none_iff s 0).mpr (hfree 0 (by omega))
        rw [ho] at this
        exact absurd this (by simp)
      refine ⟨⟨by rw [hl]; simp only; omega, fun j hj hn => ?_, fun j hj => ?_⟩,
        by rw [hl]; simp only; omega, by rw [hl]⟩
      · rw [hl] at hj
        simp only at hj
        rw [hsh j, if_pos (by omega)] at hn
        exact hact (j + 1) (by omega) ((scrolled_eq_none_iff s (j + 1)).mp hn)
      · rw [hl] at hj
        simp only at hj
        rw [hsh j]
        split
        · exact (scrolled_eq_none_iff s (j + 1)).mpr (hfree (j + 1) (by omega))
        · exact (scrolled_eq_none_iff s j).mpr (hfree j (by omega))

/-- Within the capacity before and after, `update` keeps the obstacles in the first
slots and the other slots `NULL`. -/
theorem update_filled (COLS : Int) (rand : Nat → Nat) (s s2 : game) (hp : filled_front s)
    (hcap : s.current_level.latest_obstacle ≤ s.current_level.max_obstacles)
    (h : update COLS rand s = some s2) :
    filled_front s2 := by
  obtain ⟨r, s1, hb, -, hcol, -, -⟩ := update_spec COLS rand s s2 h
  obtain ⟨⟨h0, hact, hfree⟩, -, -⟩ := before_generate_filled s s1 r hp hcap hb
  cases r with
  | true =>
    rw [hcol rfl]
    exact ⟨h0, hact, hfree⟩
  | false =>
    obtain ⟨res, n, -, hcase⟩ := update_after_generate COLS rand s s1 s2 hb h
    rcases hcase with ⟨-, hobs, hlvl⟩ | ⟨cactus, -, -, hobs, hlvl⟩
    · refine ⟨by rw [hlvl]; exact h0, ?_, ?_⟩
      · rw [hlvl, hobs]; exact hact
      · rw [hlvl, hobs]; exact hfree
    · refine ⟨by rw [hlvl]; simp only; omega, fun j hj => ?_, fun j hj => ?_⟩
      · rw [hlvl] at hj
        simp only at hj
        rw [hobs]
        by_cases hjl : j = s1.current_level.latest_obstacle.toNat
        · rw [hjl, Function.update_same]
          simp
        · rw [Function.update_noteq hjl]
          exact hact j (by omega)
      · rw [hlvl] at hj
        simp only at hj
        rw [hobs, Function.update_noteq (by omega)]
        exact hfree j (by omega)

/-- Along a run of the game loop body in which no state exceeds the capacity, the
obstacles stay in the first slots and the other slots stay `NULL`. -/
theorem ticks_filled (COLS : Int) (rand : Nat → Nat) :
    ∀ (keys : List key) (s s2 : game), filled_front s →
      ticks COLS rand keys s = some s2 →
      (∀ m sp, ticks COLS rand (keys.take m) s = some sp →
        sp.current_level.latest_obstacle ≤ sp.current_level.max_obstacles) →
      filled_front s2 ∧
        s2.current_level.latest_obstacle ≤ s2.current_level.max_obstacles := by
  intro keys
  induction keys with
  | nil =>
    intro s s2 hp h hpre
    have hcap := hpre 0 s2 (by simpa using h)
    simp only [ticks, Option.some.injEq] at h
    subst h
    exact ⟨hp, hcap⟩
  | cons k ks ih =>
    intro s s2 hp h hpre
    have hcap := hpre 0 s (by simp [ticks])
    unfold ticks at h
    split at h
    · exact absurd h (by simp)
    · rename_i s1 ht
      have hp1 : filled_front s1 := by
        unfold tick at ht
        split at ht
        · have key := fun a b => update_filled COLS rand _ s1 a b ht
          exact key hp hcap
        · have key := fun a b => update_filled COLS rand _ s1 a b ht
          exact key hp hcap
        · exact update_filled COLS rand s s1 hp hcap ht
      refine ih s1 s2 hp1 h (fun m sp hm => hpre (m + 1) sp ?_)
      rw [List.take_succ_cons, ticks, ht]
      exact hm

/-- Along a run from an initial state (count 0, all slots `NULL`) in which no state
exceeds the capacity (`latest_obstacle <= max_obstacles` throughout, so that the slot
`memmove` copies into the vacated last slot is `NULL`), slots `0..latest_obstacle-1` hold
obstacles and all later slots are `NULL`, so `obstacles[0] != NULL` holds exactly when
`latest_obstacle >= 1`; and in the next call of `update`, when `generate_obstacle` finds
slot 0 occupied, the index `latest_obstacle - 1` it reads is within
`0..latest_obstacle-1` and the slot holds an obstacle. -/
theorem slots_within_capacity (COLS : Int) (rand : Nat → Nat) (s0 : game)
    (h0 : initial_state s0) (keys : List key) (s : game)
    (h : ticks COLS rand keys s0 = some s)
    (hpre : ∀ m sp, ticks COLS rand (keys.take m) s0 = some sp →
      sp.current_level.latest_obstacle ≤ sp.current_level.max_obstacles) :
    (∀ j : Nat, (j : Int) < s.current_level.latest_obstacle → s.obstacles j ≠ none) ∧
    (∀ j : Nat, s.current_level.latest_obstacle ≤ (j : Int) → s.obstacles j = none) ∧
    (s.obstacles 0 ≠ none ↔ 1 ≤ s.current_level.latest_obstacle) ∧
    (∀ s1, before_generate s = some (false, s1) →
      (s1.obstacles 0 ≠ none ↔ 1 ≤ s1.current_level.latest_obstacle) ∧
      (s1.obstacles 0 ≠ none →
        0 ≤ s1.current_level.latest_obstacle - 1 ∧
        s1.current_level.latest_obstacle - 1 < s1.current_level.latest_obstacle ∧
        ∃ back, slot_at s1.obstacles (s1.current_level.latest_obstacle - 1) = some back)) := by
  have hinit : filled_front s0 :=
    ⟨by rw [h0.1], fun j hj => by rw [h0.1] at hj; omega, fun j _ => h0.2 j⟩
  have hiff : ∀ t : game, filled_front t →
      (t.obstacles 0 ≠ none ↔ 1 ≤ t.current_level.latest_obstacle) := by
    intro t ht
    constructor
    · intro hne
      by_contra hcon
      exact hne (ht.2.2 0 (by omega))
    · intro h1
      exact ht.2.1 0 (by omega)
  obtain ⟨hp, hcap⟩ := ticks_filled COLS rand keys s0 s hinit h hpre
  refine ⟨hp.2.1, hp.2.2, hiff s hp, fun s1 hb => ?_⟩
  obtain ⟨hp1, -, -⟩ := before_generate_filled s s1 false hp hcap hb
  refine ⟨hiff s1 hp1, fun hne => ?_⟩
  have h1 := (hiff s1 hp1).mp hne
  refine ⟨by omega, by omega, ?_⟩
  unfold slot_at
  rw [if_neg (by omega)]
  exact Option.ne_none_iff_exists'.mp (hp1.2.1 _ (by omega))

/-- The first tick from the state built by `main`: the state after it holds one
obstacle, in slot 0. -/
theorem slots_within_capacity_witness :
    ∃ s, ticks 80 zero_draws [key.other] (main_init 80) = some s ∧
      s.current_level.latest_obstacle = 1 ∧
      (∀ j : Nat, (j : Int) < s.current_level.latest_obstacle → s.obstacles j ≠ none) ∧
      (∀ j : Nat, s.current_level.latest_obstacle ≤ (j : Int) → s.obstacles j = none) ∧
      (s.obstacles 0 ≠ none ↔ 1 ≤ s.current_level.latest_obstacle) := by
  have hv : (ticks 80 zero_draws [key.other] (main_init 80)).map
      (fun s => s.current_level.latest_obstacle) = some 1 := by decide!
  obtain ⟨s, hs, hl⟩ := Option.map_eq_some'.mp hv
  have hpre : ∀ m sp, ticks 80 zero_draws ([key.other].take m) (main_init 80) = some sp →
      sp.current_level.latest_obstacle ≤ sp.current_level.max_obstacles := by
    intro m sp hm
    have hboth : ∀ l : List key, l = [] ∨ l = [key.other] →
        (ticks 80 zero_draws l (main_init 80)).map
          (fun t => decide (t.current_level.latest_obstacle ≤
            t.current_level.max_obstacles)) = some true := by
      intro l hl
      rcases hl with hl | hl <;> subst hl <;> decide!
    have hm2 := hboth ([key.other].take m) (by
      cases m with
      | zero => exact Or.inl rfl
      | succ m => exact Or.inr (by simp))
    rw [hm] at hm2
    simpa using hm2
  have t := slots_within_capacity 80 zero_draws (main_init 80) ⟨rfl, fun _ => rfl⟩
    [key.other] s hs hpre
  exact ⟨s, hs, hl, t.1, t.2.1, t.2.2.1⟩


/-- C20 fails on the code. From the state built by `main` on an 80-column terminal, with
`w` pressed at every tick: with `rand()` returning 0, after 36 ticks the count is 2, within
the capacity 2, and slot 2 is occupied (the `memmove` of line 264 copies `max_obstacles`
slots, so after the overflow of tick 31 it leaves the obstacle of slot 2 behind). With
`rand()` returning 0 five times and 1 afterwards, after 65 ticks the count is 1 and slots
1 and 2 are occupied; in the 66th call of `update` the removal leaves the count at 0 with
slot 0 occupied, and `generate_obstacle` reads index `latest_obstacle - 1 = -1`. -/
theorem slots_stale_after_overflow :
    (play 80 zero_draws (List.replicate 36 key.w) (main_init 80)).map
      (fun s => (s.current_level.latest_obstacle, s.current_level.max_obstacles,
        (s.obstacles 1).map (fun o => o.hitbox.x),
        (s.obstacles 2).map (fun o => o.hitbox.x))) = some (2, 2, some 60, some 60) ∧
    (play 80 late_draws (List.replicate 65 key.w) (main_init 80)).map
      (fun s => (s.current_level.latest_obstacle, s.current_level.max_obstacles,
        (s.obstacles 1).isSome, (s.obstacles 2).isSome)) = some (1, 2, true, true) ∧
    (play 80 late_draws (List.replicate 65 key.w) (main_init 80)).bind
      (fun s => (before_generate { s with dino := jump s.dino }).map
        (fun p => (p.2.current_level.latest_obstacle, p.2.current_level.max_obstacles,
          (p.2.obstacles 0).isSome,
          p.2.current_level.latest_obstacle - 1,
          (slot_at p.2.obstacles (p.2.current_level.latest_obstacle - 1)).isSome))) =
      some (0, 2, true, -1, false) := by
  decide!

/-! ## The order of the obstacles -/

/-- The column of a scrolled active obstacle, for an integer speed `k`. -/
theorem scrolled_x (s : game) (k : Int) (hk : s.current_level.speed = (k : ℚ)) (j : Nat)
    (hj : (j : Int) < s.current_level.latest_obstacle) (b : obstacle)
    (h : scrolled s j = some b) :
    ∃ b0, s.obstacles j = some b0 ∧ b.hitbox.x = b0.hitbox.x - k := by
  unfold scrolled at h
  rw [if_pos hj] at h
  obtain ⟨b0, hb0, hs⟩ := Option.map_eq_some'.mp h
  refine ⟨b0, hb0, ?_⟩
  rw [← hs, hk, scroll_int]

/-- The part of `update` before the generation step keeps the obstacles ordered, for an
integer speed that is not negative. -/
theorem before_generate_ordered (s s1 : game) (r : Bool) (k : Int)
    (hk : s.current_level.speed = (k : ℚ)) (hk0 : 0 ≤ k) (hc : counted s) (ho : ordered s)
    (hb : before_generate s = some (r, s1)) : ordered s1 := by
  obtain ⟨-, -, -, ht, hf⟩ := before_generate_spec s r s1 hb
  cases r with
  | true =>
    obtain ⟨hl, -⟩ := ht rfl
    obtain ⟨c, -, hle, hgt, -, -⟩ := before_generate_true_slots s s1 hb
    intro i j hij hj a b ha hb2
    rw [hl] at hj
    simp only at hj
    by_cases hjc : j ≤ c
    · rw [hle i (by omega)] at ha
      rw [hle j hjc] at hb2
      obtain ⟨a0, ha0, hax⟩ := scrolled_x s k hk i (by omega) a ha
      obtain ⟨b0, hb0, hbx⟩ := scrolled_x s k hk j hj b hb2
      have := ho i j hij hj a0 b0 ha0 hb0
      omega
    · rw [hgt j (by omega)] at hb2
      by_cases hic : i ≤ c
      · rw [hle i hic] at ha
        obtain ⟨a0, ha0, hax⟩ := scrolled_x s k hk i (by omega) a ha
        have := ho i j hij hj a0 b ha0 hb2
        omega
      · rw [hgt i (by omega)] at ha
        exact ho i j hij hj a b ha hb2
  | false =>
    rcases remove_front_spec _ _ _ _ (hf rfl) with ⟨hobs, hl, -⟩ | ⟨o, -, -, -, hl, hsh⟩
    · intro i j hij hj a b ha hb2
      rw [hl] at hj
      rw [hobs] at ha hb2
      obtain ⟨a0, ha0, hax⟩ := scrolled_x s k hk i (by omega) a ha
      obtain ⟨b0, hb0, hbx⟩ := scrolled_x s k hk j hj b hb2
      have := ho i j hij hj a0 b0 ha0 hb0
      omega
    · intro i j hij hj a b ha hb2
      rw [hl] at hj
      simp only at hj
      have hcap := hc.2.1
      rw [hsh i, if_pos (by omega)] at ha
      rw [hsh j, if_pos (by omega)] at hb2
      obtain ⟨a0, ha0, hax⟩ := scrolled_x s k hk (i + 1) (by omega) a ha
      obtain ⟨b0, hb0, hbx⟩ := scrolled_x s k hk (j + 1) (by omega) b hb2
      have := ho (i + 1) (j + 1) (by omega) (by omega) a0 b0 ha0 hb0
      omega

/-- One `update` keeps the obstacles ordered, for an integer speed that is not negative
and `min_obstacle_distance >= 17`. -/
theorem update_ordered (COLS : Int) (rand : Nat → Nat) (s s2 : game) (k : Int)
    (hk : s.current_level.speed = (k : ℚ)) (hk0 : 0 ≤ k)
    (hmin : 17 ≤ s.current_level.min_obstacle_distance) (hc : counted s) (ho : ordered s)
    (h : update COLS rand s = some s2) : ordered s2 := by
  obtain ⟨r, s1, hb, -, hcol, -, -⟩ := update_spec COLS rand s s2 h
  have ho1 := before_generate_ordered s s1 r k hk hk0 hc ho hb
  obtain ⟨h0, -, -, hact, -⟩ := before_generate_counted s s1 r hc hb
  cases r with
  | true =>
    rw [hcol rfl]
    exact ho1
  | false =>
    have hmin1 : s1.current_level.min_obstacle_distance =
        s.current_level.min_obstacle_distance := by
      obtain ⟨-, -, -, -, hf⟩ := before_generate_spec s false s1 hb
      rcases remove_front_level _ _ _ _ (hf rfl) with h1 | h1 <;> rw [h1]
    obtain ⟨res, n, hg, hcase⟩ := update_after_generate COLS rand s s1 s2 hb h
    obtain ⟨hg1, hg2⟩ := generate_obstacle_guard _ _ _ _ _ _ _ hg
    rcases hcase with ⟨-, hobs, hlvl⟩ | ⟨cactus, hres, -, hobs, hlvl⟩
    · intro i j hij hj a b ha hb2
      rw [hlvl] at hj
      rw [hobs] at ha hb2
      exact ho1 i j hij hj a b ha hb2
    · subst hres
      have hle : s1.current_level.latest_obstacle ≤ s1.current_level.max_obstacles := by
        by_contra hcon
        exact absurd (hg1 (by omega)) (by simp)
      obtain ⟨t, ht, hcac⟩ := generate_obstacle_eq_template _ _ _ _ _ _ _ hg
      have hx : COLS - 16 ≤ cactus.hitbox.x := by
        obtain ⟨h9, h6, h15, -, -, hx, -⟩ := template_spec COLS t ht
        rw [← hcac] at h9 h6 h15 hx
        have h3 : t = 0 ∨ t = 1 ∨ t = 2 := by omega
        rcases h3 with h | h | h
        · rw [hx, h9 h]; omega
        · rw [hx, h6 h]; omega
        · rw [hx, h15 h]; omega
      intro i j hij hj a b ha hb2
      rw [hlvl] at hj
      simp only at hj
      rw [hobs] at ha hb2
      have hi : i ≠ s1.current_level.latest_obstacle.toNat := by omega
      rw [Function.update_noteq hi] at ha
      by_cases hjl : j = s1.current_level.latest_obstacle.toNat
      · rw [hjl, Function.update_same] at hb2
        cases hb2
        have hne0 : s1.obstacles 0 ≠ none := hact 0 (by omega)
        obtain ⟨back, hback, hbx⟩ := hg2 hle hne0
        have hbx := hbx (by simp)
        unfold slot_at at hback
        rw [if_neg (by omega)] at hback
        have hax : a.hitbox.x ≤ back.hitbox.x := by
          by_cases hib : i = (s1.current_level.latest_obstacle - 1).toNat
          · rw [hib, hback] at ha
            cases ha
            exact le_refl _
          · exact le_of_lt (ho1 i _ (by omega) (by omega) a back ha hback)
        omega
      · rw [Function.update_noteq hjl] at hb2
        exact ho1 i j hij (by omega) a b ha hb2


/-- One iteration of the game loop keeps `counted`, the order of the obstacles and the
parameters of the level they depend on. -/
theorem tick_ordered (COLS : Int) (rand : Nat → Nat) (key1 : key) (s s1 : game) (k : Int)
    (hk : s.current_level.speed = (k : ℚ)) (hk0 : 0 ≤ k)
    (hmin : 17 ≤ s.current_level.min_obstacle_distance)
    (hmax : 0 ≤ s.current_level.max_obstacles) (hc : counted s) (ho : ordered s)
    (h : tick COLS rand key1 s = some s1) :
    s1.current_level.speed = (k : ℚ) ∧ 17 ≤ s1.current_level.min_obstacle_distance ∧
      0 ≤ s1.current_level.max_obstacles ∧ counted s1 ∧ ordered s1 := by
  have main : ∀ t : game, t.current_level.speed = (k : ℚ) →
      17 ≤ t.current_level.min_obstacle_distance → 0 ≤ t.current_level.max_obstacles →
      counted t → ordered t → update COLS rand t = some s1 →
      s1.current_level.speed = (k : ℚ) ∧ 17 ≤ s1.current_level.min_obstacle_distance ∧
        0 ≤ s1.current_level.max_obstacles ∧ counted s1 ∧ ordered s1 := by
    intro t tk tmin tmax tc tord hu
    obtain ⟨n, b, hl⟩ := update_level COLS rand t s1 hu
    refine ⟨by rw [hl]; exact tk, by rw [hl]; exact tmin, by rw [hl]; exact tmax,
      (update_counted COLS rand t s1 tmax tc hu).1,
      update_ordered COLS rand t s1 k tk hk0 tmin tc tord hu⟩
  unfold tick at h
  split at h
  · have key := fun a b c d e => main _ a b c d e h
    exact key hk hmin hmax hc ho
  · have key := fun a b c d e => main _ a b c d e h
    exact key hk hmin hmax hc ho
  · exact main s hk hmin hmax hc ho h

/-- Repeated iterations of the game loop keep the obstacles ordered. -/
theorem ticks_ordered (COLS : Int) (rand : Nat → Nat) (k : Int) (hk0 : 0 ≤ k) :
    ∀ (keys : List key) (s s2 : game), s.current_level.speed = (k : ℚ) →
      17 ≤ s.current_level.min_obstacle_distance → 0 ≤ s.current_level.max_obstacles →
      counted s → ordered s → ticks COLS rand keys s = some s2 → ordered s2 := by
  intro keys
  induction keys with
  | nil =>
    intro s s2 _ _ _ _ ho h
    simp only [ticks, Option.some.injEq] at h
    subst h
    exact ho
  | cons key1 ks ih =>
    intro s s2 hk hmin hmax hc ho h
    unfold ticks at h
    split at h
    · exact absurd h (by simp)
    · rename_i s1 ht
      obtain ⟨h1, h2, h3, h4, h5⟩ :=
        tick_ordered COLS rand key1 s s1 k hk hk0 hmin hmax hc ho ht
      exact ih s1 s2 h1 h2 h3 h4 h5 h

/-- C11 as stated fails: with `min_obstacle_distance = 5` on an 80-column terminal the
second tick puts the obstacle of width 15 at column 64 behind the obstacle at column 68;
and in the level built by `main` on a 20-column terminal (`min_obstacle_distance = 10`)
it puts it at column 4 behind the obstacle at column 8. In both states
`obstacles[0].hitbox.x > obstacles[1].hitbox.x` with `latest_obstacle = 2`. -/
theorem obstacles_not_ordered :
    (close_scene.current_level.latest_obstacle, close_scene.obstacles 0) = (0, none) ∧
    (play 80 wide_third_draw [key.other, key.other] close_scene).map
      (fun s => (s.current_level.latest_obstacle,
        (s.obstacles 0).map (fun o => o.hitbox.x),
        (s.obstacles 1).map (fun o => o.hitbox.x))) = some (2, some 68, some 64) ∧
    (play 20 wide_third_draw [key.other, key.other] (main_init 20)).map
      (fun s => (s.current_level.latest_obstacle,
        (s.obstacles 0).map (fun o => o.hitbox.x),
        (s.obstacles 1).map (fun o => o.hitbox.x))) = some (2, some 8, some 4) := by
  decide!

/-- C11, amended: for a level with an integer speed that is not negative,
`min_obstacle_distance >= 17` (more than the widest template plus one) and
`max_obstacles >= 0`, whatever the keys and the draws, in every state reached from an
initial state (count 0, all slots `NULL`) by repeated calls of `update`, in the game
loop or outside it, the active obstacles are ordered by position:
`obstacles[i].hitbox.x < obstacles[j].hitbox.x` for `i < j < latest_obstacle`. -/
theorem obstacles_ordered (COLS : Int) (rand : Nat → Nat) (s0 : game) (k : Int)
    (hk : s0.current_level.speed = (k : ℚ)) (hk0 : 0 ≤ k)
    (hmin : 17 ≤ s0.current_level.min_obstacle_distance)
    (hmax : 0 ≤ s0.current_level.max_obstacles) (h0 : initial_state s0) :
    (∀ keys s, ticks COLS rand keys s0 = some s →
      ∀ i j : Nat, i < j → (j : Int) < s.current_level.latest_obstacle →
        ∀ a b, s.obstacles i = some a → s.obstacles j = some b →
          a.hitbox.x < b.hitbox.x) ∧
    (∀ keys s, play COLS rand keys s0 = some s →
      ∀ i j : Nat, i < j → (j : Int) < s.current_level.latest_obstacle →
        ∀ a b, s.obstacles i = some a → s.obstacles j = some b →
          a.hitbox.x < b.hitbox.x) := by
  have hord : ordered s0 := by
    intro i j _ hj
    rw [h0.1] at hj
    omega
  have hticks : ∀ keys s, ticks COLS rand keys s0 = some s → ordered s := fun keys s h =>
    ticks_ordered COLS rand k hk0 keys s0 s hk hmin hmax (initial_counted s0 hmax h0) hord h
  refine ⟨hticks, fun keys s h => ?_⟩
  obtain ⟨ks, hks⟩ := play_ticks COLS rand keys s0 s h
  exact hticks ks s hks

/-- C11, amended, on the run of 31 ticks from the state built by `main` on an 80-column
terminal (speed 2, `min_obstacle_distance = 40`): the three obstacles stand at columns
10, 40 and 70. -/
theorem obstacles_ordered_witness :
    ∃ s, play 80 zero_draws (List.replicate 31 key.w) (main_init 80) = some s ∧
      ((s.obstacles 0).map (fun o => o.hitbox.x), (s.obstacles 1).map (fun o => o.hitbox.x),
        (s.obstacles 2).map (fun o => o.hitbox.x)) = (some 10, some 40, some 70) ∧
      ∀ i j : Nat, i < j → (j : Int) < s.current_level.latest_obstacle →
        ∀ a b, s.obstacles i = some a → s.obstacles j = some b →
          a.hitbox.x < b.hitbox.x := by
  have hv : (play 80 zero_draws (List.replicate 31 key.w) (main_init 80)).map
      (fun s => ((s.obstacles 0).map (fun o => o.hitbox.x),
        (s.obstacles 1).map (fun o => o.hitbox.x),
        (s.obstacles 2).map (fun o => o.hitbox.x))) = some (some 10, some 40, some 70) := by
    decide!
  obtain ⟨s, hs, hx⟩ := Option.map_eq_some'.mp hv
  exact ⟨s, hs, hx, (obstacles_ordered 80 zero_draws (main_init 80) 2 (by decide!)
    (by decide) (by decide) (by decide) ⟨rfl, fun _ => rfl⟩).2 _ s hs⟩

/-! ## The dinosaur built by `main` -/

/-- The animation step leaves `current_frame` at `frame_1` or `frame_2`. -/
theorem animate_frame (d : dinosaur) :
    (animate d).current_frame = frame_1 ∨ (animate d).current_frame = frame_2 := by
  unfold animate
  split
  · exact Or.inr rfl
  · exact Or.inl rfl

/-- One iteration of the game loop keeps `max_dy` and the height of the hitbox, and
leaves `current_frame` at `frame_1` or `frame_2`. -/
theorem tick_dino_fixed (COLS : Int) (rand : Nat → Nat) (k : key) (s s1 : game)
    (h : tick COLS rand k s = some s1) :
    s1.dino.max_dy = s.dino.max_dy ∧ s1.dino.hitbox.height = s.dino.hitbox.height ∧
      (s1.dino.current_frame = frame_1 ∨ s1.dino.current_frame = frame_2) := by
  rw [(tick_dino COLS rand k s s1 h).1]
  have hx : (if k = key.w then jump s.dino else s.dino).max_dy = s.dino.max_dy ∧
      (if k = key.w then jump s.dino else s.dino).hitbox = s.dino.hitbox := by
    split <;> exact ⟨rfl, rfl⟩
  refine ⟨?_, ?_, ?_⟩
  · show (animate _).max_dy = s.dino.max_dy
    rw [(animate_fields _).2.2.1, hx.1]
  · show (animate _).hitbox.height = s.dino.hitbox.height
    rw [(animate_fields _).1, hx.2]
  · exact animate_frame _

/-- In every state reached from the state built by `main` by repeated calls of `update`,
whatever the terminal width, the keys and the draws, `max_dy` is 3, the hitbox has 4
rows, `current_frame` is `frame_1` or `frame_2`, and the dinosaur is on or above its
ground row. -/
theorem ticks_main_dino (COLS : Int) (rand : Nat → Nat) :
    ∀ (keys : List key) (s0 s : game),
      (s0.dino.max_dy = 3 ∧ s0.dino.hitbox.height = 4 ∧
        (s0.dino.current_frame = frame_1 ∨ s0.dino.current_frame = frame_2) ∧
        s0.dino.hitbox.y ≤ s0.dino.ground) →
      ticks COLS rand keys s0 = some s →
      s.dino.max_dy = 3 ∧ s.dino.hitbox.height = 4 ∧
        (s.dino.current_frame = frame_1 ∨ s.dino.current_frame = frame_2) ∧
        s.dino.hitbox.y ≤ s.dino.ground := by
  intro keys
  induction keys with
  | nil =>
    intro s0 s h0 h
    simp only [ticks, Option.some.injEq] at h
    subst h
    exact h0
  | cons k ks ih =>
    intro s0 s h0 h
    unfold ticks at h
    split at h
    · exact absurd h (by simp)
    · rename_i s1 ht
      obtain ⟨h1, h2, h3⟩ := tick_dino_fixed COLS rand k s0 s1 ht
      exact ih s1 s ⟨h1.trans h0.1, h2.trans h0.2.1, h3,
        (tick_le_ground COLS rand k s0 s1 ht).1⟩ h

/-- The state built by `main` has `max_dy = 3`, a hitbox of 4 rows, `current_frame` at
`frame_1` and the dinosaur on its ground row. -/
theorem main_init_dino (COLS : Int) :
    (main_init COLS).dino.max_dy = 3 ∧ (main_init COLS).dino.hitbox.height = 4 ∧
      ((main_init COLS).dino.current_frame = frame_1 ∨
        (main_init COLS).dino.current_frame = frame_2) ∧
      (main_init COLS).dino.hitbox.y ≤ (main_init COLS).dino.ground :=
  ⟨rfl, rfl, Or.inl rfl, le_refl _⟩

/-! ## Jumping -/

/-- C9: for every dinosaur state, grounded or airborne, `jump` sets `dy` to `max_dy` and
leaves `hitbox`, `ground`, `max_dy` and `current_frame` unchanged, so a jump while
airborne overrides the velocity. The `update` that follows moves the dinosaur by the
displacement of `max_dy`, clamped at the ground: that is `floor(max_dy)` rows up whenever
`max_dy >= 0` and the dinosaur is on or above its ground row, and so in every state
reached from the state built by `main` (where `max_dy` is 3), whatever the terminal
width, the keys and the draws. -/
theorem jump_then_update (COLS : Int) (rand : Nat → Nat) (s : game) :
    ((jump s.dino).dy = s.dino.max_dy ∧ (jump s.dino).hitbox = s.dino.hitbox ∧
      (jump s.dino).ground = s.dino.ground ∧ (jump s.dino).max_dy = s.dino.max_dy ∧
      (jump s.dino).current_frame = s.dino.current_frame) ∧
    (∀ s2, update COLS rand { s with dino := jump s.dino } = some s2 →
      s2.dino.hitbox.y =
        min s.dino.ground (s.dino.hitbox.y - displacement s.dino.max_dy) ∧
      (0 ≤ s.dino.max_dy → s.dino.hitbox.y ≤ s.dino.ground →
        s2.dino.hitbox.y = s.dino.hitbox.y - ⌊s.dino.max_dy⌋)) ∧
    (∀ keys, ticks COLS rand keys (main_init COLS) = some s →
      ∀ s2, update COLS rand { s with dino := jump s.dino } = some s2 →
        s2.dino.hitbox.y = s.dino.hitbox.y - ⌊s.dino.max_dy⌋ ∧
        s2.dino.hitbox.y = s.dino.hitbox.y - 3) := by
  have hmove : ∀ s2, update COLS rand { s with dino := jump s.dino } = some s2 →
      s2.dino.hitbox.y =
        min s.dino.ground (s.dino.hitbox.y - displacement s.dino.max_dy) ∧
      (0 ≤ s.dino.max_dy → s.dino.hitbox.y ≤ s.dino.ground →
        s2.dino.hitbox.y = s.dino.hitbox.y - ⌊s.dino.max_dy⌋) := by
    intro s2 h
    have hm : s2.dino.hitbox.y =
        min s.dino.ground (s.dino.hitbox.y - displacement s.dino.max_dy) := by
      rw [(update_dino_game_state COLS rand _ s2 h).1]
      exact physics_row s.current_level.gravity (jump s.dino)
    refine ⟨hm, fun hpos hy => ?_⟩
    have hfl : 0 ≤ ⌊s.dino.max_dy⌋ := Int.floor_nonneg.mpr hpos
    have hdisp : displacement s.dino.max_dy = ⌊s.dino.max_dy⌋ := by
      unfold displacement
      split
      · rfl
      · rename_i hnot
        have h0 : s.dino.max_dy = 0 := le_antisymm (not_lt.mp hnot) hpos
        rw [h0]
        simp
    rw [hm, hdisp]
    omega
  refine ⟨⟨rfl, rfl, rfl, rfl, rfl⟩, hmove, fun keys hk s2 h => ?_⟩
  obtain ⟨h3, -, -, hy⟩ := ticks_main_dino COLS rand keys (main_init COLS) s
    (main_init_dino COLS) hk
  have hfloor := (hmove s2 h).2 (by rw [h3]; norm_num) hy
  refine ⟨hfloor, ?_⟩
  rw [hfloor, h3]
  have : ⌊(3 : ℚ)⌋ = 3 := by simp
  rw [this]

/-- C9 in the game loop: after a jump and two idle ticks from the state built by `main`
the dinosaur is airborne at row 10; a second jump there sets the velocity back to 3 and
the next `update` moves the dinosaur up by 3 rows, to row 7. -/
theorem jump_then_update_witness :
    ∃ s s2, ticks 80 zero_draws [key.w, key.other] (main_init 80) = some s ∧
      update 80 zero_draws { s with dino := jump s.dino } = some s2 ∧
      s.dino.hitbox.y = 10 ∧ s.dino.hitbox.y < s.dino.ground ∧ s.dino.dy = 11 / 5 ∧
      (jump s.dino).dy = 3 ∧
      s2.dino.hitbox.y = s.dino.hitbox.y - ⌊s.dino.max_dy⌋ ∧
      s2.dino.hitbox.y = s.dino.hitbox.y - 3 := by
  have hv : (ticks 80 zero_draws [key.w, key.other] (main_init 80)).map
      (fun s => (s.dino.hitbox.y, s.dino.ground, s.dino.dy, s.dino.max_dy)) =
      some (10, 15, 11 / 5, 3) := by decide!
  obtain ⟨s, hs, hf⟩ := Option.map_eq_some'.mp hv
  simp only [Prod.mk.injEq] at hf
  obtain ⟨hy, hg, hdy, hmax⟩ := hf
  have h2 : ((ticks 80 zero_draws [key.w, key.other] (main_init 80)).bind
      (fun s => update 80 zero_draws { s with dino := jump s.dino })).isSome = true := by
    decide!
  rw [hs] at h2
  obtain ⟨s2, hs2⟩ := Option.isSome_iff_exists.mp h2
  have t := (jump_then_update 80 zero_draws s).2.2 _ hs s2 hs2
  exact ⟨s, s2, hs, hs2, hy, by rw [hy, hg]; decide, hdy, hmax, t.1, t.2⟩

/-! ## The animation frame is cosmetic -/

/-- C17: the animation frame is cosmetic. In every state reached from the state built by
`main`, whatever the terminal width, the keys and the draws, `current_frame` is `frame_1`
or `frame_2`, each `update` switches it to the other one, and two consecutive updates
restore it; the same holds in any state whose hitbox has between 1 and 4 rows (`frame_1`
has 4). And for two states that differ only in `current_frame`, whatever they are,
`update` returns for both or for neither, with the same dinosaur hitbox and velocity,
the same obstacle slots, the same level (count and `game_state` included) and the same
number of `rand()` calls. -/
theorem animation_is_cosmetic (COLS : Int) (rand : Nat → Nat) (s : game) :
    (∀ keys, ticks COLS rand keys (main_init COLS) = some s →
      (s.dino.current_frame = frame_1 ∨ s.dino.current_frame = frame_2) ∧
      ∀ s2, update COLS rand s = some s2 →
        (s.dino.current_frame = frame_1 → s2.dino.current_frame = frame_2) ∧
        (s.dino.current_frame = frame_2 → s2.dino.current_frame = frame_1) ∧
        ∀ s3, update COLS rand s2 = some s3 →
          s3.dino.current_frame = s.dino.current_frame) ∧
    (∀ s2, update COLS rand s = some s2 →
      0 < s.dino.hitbox.height → s.dino.hitbox.height ≤ 4 →
      (s.dino.current_frame = frame_1 → s2.dino.current_frame = frame_2) ∧
      (s.dino.current_frame = frame_2 → s2.dino.current_frame = frame_1)) ∧
    (∀ s2 s3, update COLS rand s = some s2 → update COLS rand s2 = some s3 →
      0 < s.dino.hitbox.height → s.dino.hitbox.height ≤ 4 →
      (s.dino.current_frame = frame_1 ∨ s.dino.current_frame = frame_2) →
      s3.dino.current_frame = s.dino.current_frame) ∧
    (∀ f, (update COLS rand (set_frame f s) = none ↔ update COLS rand s = none) ∧
      ∀ s2, update COLS rand s = some s2 →
        ∃ t2, update COLS rand (set_frame f s) = some t2 ∧
          t2.dino.hitbox = s2.dino.hitbox ∧ t2.dino.dy = s2.dino.dy ∧
          t2.obstacles = s2.obstacles ∧ t2.current_level = s2.current_level ∧
          t2.calls = s2.calls) := by
  have hone : ∀ s2, update COLS rand s = some s2 →
      0 < s.dino.hitbox.height → s.dino.hitbox.height ≤ 4 →
      (s.dino.current_frame = frame_1 → s2.dino.current_frame = frame_2) ∧
      (s.dino.current_frame = frame_2 → s2.dino.current_frame = frame_1) := by
    intro s2 h h0 h4
    rw [(update_frame COLS rand s s2 h).1]
    exact animate_toggle s.dino h0 h4
  have htwo : ∀ s2 s3, update COLS rand s = some s2 → update COLS rand s2 = some s3 →
      0 < s.dino.hitbox.height → s.dino.hitbox.height ≤ 4 →
      (s.dino.current_frame = frame_1 ∨ s.dino.current_frame = frame_2) →
      s3.dino.current_frame = s.dino.current_frame := by
    intro s2 s3 h h23 h0 h4 hf
    obtain ⟨hf2, hh2⟩ := update_frame COLS rand s s2 h
    obtain ⟨hf3, -⟩ := update_frame COLS rand s2 s3 h23
    have t1 := animate_toggle s.dino h0 h4
    have t2 := animate_toggle s2.dino (by rw [hh2]; exact h0) (by rw [hh2]; exact h4)
    rw [hf3]
    rcases hf with hf | hf
    · rw [hf]
      exact t2.2 (hf2.trans (t1.1 hf))
    · rw [hf]
      exact t2.1 (hf2.trans (t1.2 hf))
  refine ⟨fun keys hk => ?_, hone, htwo, fun f => ⟨?_, fun s2 h => ?_⟩⟩
  · obtain ⟨-, hh, hf, -⟩ := ticks_main_dino COLS rand keys (main_init COLS) s
      (main_init_dino COLS) hk
    have h0 : 0 < s.dino.hitbox.height := by rw [hh]; decide
    have h4 : s.dino.hitbox.height ≤ 4 := by rw [hh]
    refine ⟨hf, fun s2 h => ?_⟩
    exact ⟨(hone s2 h h0 h4).1, (hone s2 h h0 h4).2, fun s3 h3 => htwo s2 s3 h h3 h0 h4 hf⟩
  · rw [update_set_frame]
    exact Option.map_eq_none'
  · rw [update_set_frame, h]
    exact ⟨_, rfl, rfl, rfl, rfl, rfl, rfl⟩

/-- C17 in the game loop: three ticks after the start `current_frame` is at `frame_2`;
the next two updates take it to `frame_1` and back to `frame_2`, and the same state with
`current_frame` moved to `frame_1` is updated to the same hitbox, velocity, slots and
level. -/
theorem animation_is_cosmetic_witness :
    ∃ s s2 s3 t2, ticks 80 zero_draws [key.other, key.w, key.other] (main_init 80) = some s ∧
      update 80 zero_draws s = some s2 ∧ update 80 zero_draws s2 = some s3 ∧
      update 80 zero_draws (set_frame frame_1 s) = some t2 ∧
      s.dino.current_frame = frame_2 ∧ s2.dino.current_frame = frame_1 ∧
      s3.dino.current_frame = frame_2 ∧
      t2.dino.hitbox = s2.dino.hitbox ∧ t2.dino.dy = s2.dino.dy ∧
      t2.obstacles = s2.obstacles ∧ t2.current_level = s2.current_level := by
  have hv : (ticks 80 zero_draws [key.other, key.w, key.other] (main_init 80)).map
      (fun s => s.dino.current_frame) = some frame_2 := by decide!
  obtain ⟨s, hs, hf⟩ := Option.map_eq_some'.mp hv
  have h2 : ((ticks 80 zero_draws [key.other, key.w, key.other] (main_init 80)).bind
      (update 80 zero_draws)).isSome = true := by decide!
  rw [hs] at h2
  obtain ⟨s2, hs2⟩ := Option.isSome_iff_exists.mp h2
  have h3 : (((ticks 80 zero_draws [key.other, key.w, key.other] (main_init 80)).bind
      (update 80 zero_draws)).bind (update 80 zero_draws)).isSome = true := by decide!
  rw [hs] at h3
  simp only [Option.bind_eq_bind, Option.some_bind, hs2] at h3
  obtain ⟨s3, hs3⟩ := Option.isSome_iff_exists.mp h3
  have t := animation_is_cosmetic 80 zero_draws s
  obtain ⟨-, hsw⟩ := t.1 _ hs
  obtain ⟨-, h21, h33⟩ := hsw s2 hs2
  obtain ⟨t2, ht2, ha, hb, hc, hd, -⟩ := (t.2.2.2 frame_1).2 s2 hs2
  exact ⟨s, s2, s3, t2, hs, hs2, hs3, ht2, hf, h21 hf, (h33 s3 hs3).trans hf,
    ha, hb, hc, hd⟩

end DinosaurGame
